import Mathlib

/-!
# PCMSolver: run-time selection of template arguments (`ForIdGreen2.hpp`)
and the analytic reference of the ionic-liquid Green's function
(`tests/green/green_ionic_liquid.cpp`)

A shallow embedding of the metafunction `for_id` and of the Boost.MPL
metafunctions it is written with.

* A type sequence `mpl::vector<...>` is a `List τ`, where `τ` is a set of
  names of C++ types with decidable equality (type identity).
* An iterator `v_iter<S, n>` of a sequence `S` is a position `0 ≤ n ≤ |S|`.
* `mpl::deref` of the end iterator is `mpl::void_`, written `none`.
* A run-time `int` is an `Int`; the comparison `position<..>::value == id1`
  of the source compares a `long` constant with an `int`, which is the
  comparison of the mathematical values.
* `IGreensFunction *` is `Option γ`, with `none` for `nullptr`.
* The functor `T & f` is taken by reference and may change when it is
  applied: its state `σ` is passed explicitly.
* Each `execute`/`apply` that is entered is recorded in a list of frames
  (ghost state), so that one can speak about which specialization ran.
-/

namespace ForIdGreen

/-! ## Boost.MPL metafunctions used by the source -/

/-- An iterator of the type sequence `S` (Boost: `v_iter<S, n>`): a position
from `0` (begin) to `S.length` (end). -/
abbrev v_iter {τ : Type} (S : List τ) : Type := Fin (S.length + 1)

/-- The metafunction `mpl::begin<S>::type`. -/
def mpl_begin {τ : Type} (S : List τ) : v_iter S := ⟨0, Nat.succ_pos _⟩

/-- The metafunction `mpl::end<S>::type`. -/
def mpl_end {τ : Type} (S : List τ) : v_iter S := ⟨S.length, Nat.lt_succ_self _⟩

/-- The metafunction `mpl::deref<B>::type`: the type the iterator points to;
`none` (that is, `mpl::void_`) for the end iterator. -/
def mpl_deref {τ : Type} (S : List τ) (B : v_iter S) : Option τ := S.get? B.val

/-- The metafunction `mpl::next<B>::type`, for an iterator that is not the end
iterator. -/
def mpl_next {τ : Type} (S : List τ) (B : v_iter S) (h : B ≠ mpl_end S) : v_iter S :=
  ⟨B.val + 1, by
    have h1 : B.val < S.length + 1 := B.isLt
    have h2 : B.val ≠ S.length := fun e => h (Fin.ext e)
    omega⟩

/-- The metafunction `mpl::distance<B, E>::value` (a `long`). -/
def mpl_distance {τ : Type} (S : List τ) (B E : v_iter S) : Int := (E.val : Int) - (B.val : Int)

/-- The metafunction `mpl::find<S, T>::type`: an iterator to the first
occurrence of `T` in `S`, the end iterator when `T` does not occur (this is
the case of `mpl::void_`, which is no element of a sequence here). -/
def mpl_find {τ : Type} [DecidableEq τ] : (S : List τ) → Option τ → v_iter S
  | S, none => mpl_end S
  | [], some _ => mpl_end []
  | x :: xs, some t => if x = t then mpl_begin (x :: xs) else Fin.succ (mpl_find xs (some t))

/-! ## `ForIdGreen2.hpp` -/

/-- The struct `position<S, T>` (its `value`): the distance from the beginning
of `S` to the place where `mpl::find` finds `T`. -/
def position {τ : Type} [DecidableEq τ] (S : List τ) (T : Option τ) : Int :=
  mpl_distance S (mpl_begin S) (mpl_find S T)

/-- The template parameter `int D` at the values for which `ApplyFunctor<D, T1, T2>`
is defined (it is declared for every `D` and specialized for `1` and `2` only). -/
inductive Dim where
  | one
  | two
  deriving DecidableEq, Repr

/-- The value of the template parameter `D`. -/
def Dim.value : Dim → Int
  | .one => 1
  | .two => 2

/-- The creational functor `T & f`: `call1 T1 data` is
`f.template operator()<T1>(data)` and `call2 T1 T2 data` is
`f.template operator()<T1, T2>(data)`; both return an `IGreensFunction *` and
the functor as it is after the call. -/
structure Functor (τ δ γ σ : Type) where
  call1 : Option τ → δ → σ → Option γ × σ
  call2 : Option τ → Option τ → δ → σ → Option γ × σ

/-- What a call ends with: a returned `IGreensFunction *` (`none` is `nullptr`)
or a thrown `std::invalid_argument` with its message. -/
inductive Outcome (γ : Type) where
  | returned (p : Option γ)
  | thrown (what : String)
  deriving DecidableEq, Repr

/-- The member functions that can be entered during a call. -/
inductive Frame (τ : Type) where
  | primary (B1 B2 : Nat)
  | first (B2 : Nat)
  | terminating
  | apply1 (T1 : Option τ)
  | apply2 (T1 T2 : Option τ)
  deriving DecidableEq, Repr

/-- A finished call: its outcome, the functor after the call, and the member
functions entered, in order. -/
structure Run (τ γ σ : Type) where
  outcome : Outcome γ
  functor : σ
  frames : List (Frame τ)
  deriving DecidableEq, Repr

/-- Records that the member function `fr` was entered before the run `r`. -/
def Run.enter {τ γ σ : Type} (fr : Frame τ) (r : Run τ γ σ) : Run τ γ σ :=
  { r with frames := fr :: r.frames }

/-- The decimal rendering `boost::lexical_cast<std::string>(id)` of an `int`. -/
def lexical_cast (id : Int) : String := toString id

/-- The message of the exception thrown by the primary template. -/
def invalid_id1 (id1 : Int) : String :=
  "Invalid derivative type (id1 = " ++ lexical_cast id1 ++ ") in for_id metafunction."

/-- The message of the exception thrown by the first partial specialization. -/
def invalid_id2 (id2 : Int) : String :=
  "Invalid derivative type (id2 = " ++ lexical_cast id2 ++ ") in for_id metafunction."

/-- The helper `ApplyFunctor<D, T1, T2>::apply(f, data)`: the one-dimensional
specialization applies the functor to `T1`, the two-dimensional one to `T1` and
`T2`. -/
def ApplyFunctor {τ δ γ σ : Type} (D : Dim) (T1 T2 : Option τ)
    (f : Functor τ δ γ σ) (data : δ) (s : σ) : Run τ γ σ :=
  match D with
  | .one => ⟨.returned (f.call1 T1 data s).1, (f.call1 T1 data s).2, [.apply1 T1]⟩
  | .two => ⟨.returned (f.call2 T1 T2 data s).1, (f.call2 T1 T2 data s).2, [.apply2 T1 T2]⟩

/-- The member `for_id_impl<D, S1, S2, B1, B2, E1, E2, T1, T2>::execute(f, data, id1, id2)`,
with `E1 = mpl::end<S1>` and `E2 = mpl::end<S2>`. The specialization is chosen as
the compiler does: the terminating one when `B1 = E1` and `B2 = E2`, the first
partial specialization when only `B1 = E1`, the primary template otherwise. -/
def for_id_impl {τ δ γ σ : Type} [DecidableEq τ] (D : Dim) (S1 S2 : List τ)
    (B1 : v_iter S1) (B2 : v_iter S2) (T1 T2 : Option τ)
    (f : Functor τ δ γ σ) (data : δ) (id1 id2 : Int) (s : σ) : Run τ γ σ :=
  if h1 : B1 = mpl_end S1 then
    if h2 : B2 = mpl_end S2 then
      -- terminating specialization
      ⟨.returned none, s, [.terminating]⟩
    else
      -- first partial specialization
      Run.enter (.first B2.val) <|
        if position S2 (mpl_deref S2 B2) = id2 then
          ApplyFunctor D T1 (mpl_deref S2 B2) f data s
        else if 1 = mpl_distance S2 B2 (mpl_end S2) then
          ⟨.thrown (invalid_id2 id2), s, []⟩
        else
          for_id_impl D S1 S2 (mpl_end S1) (mpl_next S2 B2 h2) T1
            (mpl_deref S2 (mpl_next S2 B2 h2)) f data id1 id2 s
  else
    -- primary template
    Run.enter (.primary B1.val B2.val) <|
      if position S1 (mpl_deref S1 B1) = id1 then
        if 1 = D.value then
          ApplyFunctor D (mpl_deref S1 B1) T2 f data s
        else
          for_id_impl D S1 S2 (mpl_end S1) B2 (mpl_deref S1 B1) (mpl_deref S2 B2)
            f data id1 id2 s
      else if 1 = mpl_distance S1 B1 (mpl_end S1) then
        ⟨.thrown (invalid_id1 id1), s, []⟩
      else
        -- the call `execute(f, data, id1)`: `id2` takes its default value `0`
        for_id_impl D S1 S2 (mpl_next S1 B1 h1) B2 T1 (mpl_deref S2 B2) f data id1 0 s
termination_by (S1.length - B1.val, S2.length - B2.val)
decreasing_by
  · have h3 : B2.val ≠ S2.length := fun e => h2 (Fin.ext e)
    have h4 := B2.isLt
    subst h1
    simp only [mpl_end, mpl_next]
    right
    omega
  · have h3 : B1.val ≠ S1.length := fun e => h1 (Fin.ext e)
    have h4 := B1.isLt
    simp only [mpl_end]
    left
    omega
  · have h3 : B1.val ≠ S1.length := fun e => h1 (Fin.ext e)
    have h4 := B1.isLt
    simp only [mpl_next]
    left
    omega

/-- The two-dimensional wrapper `for_id<S1, S2>(f, data, id1, id2)`, which calls
`for_id_impl<2, S1, S2>::execute(f, data, id1, id2)`. -/
def for_id_2d {τ δ γ σ : Type} [DecidableEq τ] (S1 S2 : List τ)
    (f : Functor τ δ γ σ) (data : δ) (id1 id2 : Int) (s : σ) : Run τ γ σ :=
  for_id_impl .two S1 S2 (mpl_begin S1) (mpl_begin S2)
    (mpl_deref S1 (mpl_begin S1)) (mpl_deref S2 (mpl_begin S2)) f data id1 id2 s

/-- The one-dimensional wrapper `for_id<S1>(f, data, id1)`, which calls
`for_id_impl<1, S1>::execute(f, data, id1)`: `S2` is `mpl::vector<>` and `id2`
is `0`, their default values. -/
def for_id_1d {τ δ γ σ : Type} [DecidableEq τ] (S1 : List τ)
    (f : Functor τ δ γ σ) (data : δ) (id1 : Int) (s : σ) : Run τ γ σ :=
  for_id_impl .one S1 [] (mpl_begin S1) (mpl_begin ([] : List τ))
    (mpl_deref S1 (mpl_begin S1)) (mpl_deref ([] : List τ) (mpl_begin ([] : List τ)))
    f data id1 0 s

/-! ## Auxiliary definitions for the proofs -/

/-- Position of the first element of `S` equal to `t`, `S.length` when there is
none (the place `mpl::find` points to, as a number). -/
def findIndex {τ : Type} [DecidableEq τ] : List τ → τ → Nat
  | [], _ => 0
  | x :: xs, t => if x = t then 0 else findIndex xs t + 1

/-- Adds the frames `frs` in front of the frames of a run. -/
def Run.enterAll {τ γ σ : Type} (frs : List (Frame τ)) (r : Run τ γ σ) : Run τ γ σ :=
  { r with frames := frs ++ r.frames }

/-- Whether a frame is an application of the functor, that is, an entry of
`ApplyFunctor<D, T1, T2>::apply`, the only place where the functor is called. -/
def Frame.isApply {τ : Type} : Frame τ → Bool
  | .apply1 _ => true
  | .apply2 _ _ => true
  | _ => false

/-! ## Sample instantiations -/

/-- Names of some C++ types to instantiate the type sequences with: three
differentiation strategies and two further types for the second sequence. -/
inductive SampleType where
  | AD_directional
  | AD_gradient
  | AD_hessian
  | Uniform
  | Yukawa
  deriving DecidableEq, Repr

/-- A sample functor: the object it returns records the types it was instantiated
with, and the functor counts how many times it has been applied. -/
def recorder : Functor SampleType Unit (Option SampleType × Option SampleType) Nat where
  call1 := fun T1 _ n => (some (T1, none), n + 1)
  call2 := fun T1 T2 _ n => (some (T1, T2), n + 1)

/-- A sample functor that returns `nullptr` whatever it is instantiated with. -/
def nullFunctor : Functor SampleType Unit Unit Nat where
  call1 := fun _ _ n => (none, n + 1)
  call2 := fun _ _ _ n => (none, n + 1)

end ForIdGreen

/-! ## `tests/green/green_ionic_liquid.cpp`: the analytic reference

`IonicLiquidTest::analyticEvaluate` is written over an arbitrary field `R` with
an exponential and a square root given as functions, so that it can be read over
the real numbers (`Real.exp`, `Real.sqrt`) as well as evaluated over `ℚ` with
stand-ins. `Eigen::Vector3d` is a triple, `Eigen::Array4d` a function on `Fin 4`. -/

namespace IonicLiquidTest

/-- The type `Eigen::Vector3d`, over `R`. -/
structure Vector3d (R : Type) where
  x : R
  y : R
  z : R

/-- The difference `a - b` of two vectors. -/
def Vector3d.sub {R : Type} [Sub R] (a b : Vector3d R) : Vector3d R :=
  ⟨a.x - b.x, a.y - b.y, a.z - b.z⟩

/-- The sum `a + b` of two vectors. -/
def Vector3d.add {R : Type} [Add R] (a b : Vector3d R) : Vector3d R :=
  ⟨a.x + b.x, a.y + b.y, a.z + b.z⟩

/-- The multiple `t * a` of a vector. -/
def Vector3d.smul {R : Type} [Mul R] (t : R) (a : Vector3d R) : Vector3d R :=
  ⟨t * a.x, t * a.y, t * a.z⟩

/-- The scalar product `a.dot(b)`. -/
def Vector3d.dot {R : Type} [Add R] [Mul R] (a b : Vector3d R) : R :=
  a.x * b.x + a.y * b.y + a.z * b.z

/-- The Euclidean norm `a.norm()`, the square root of `a.dot(a)`. -/
def Vector3d.norm {R : Type} [Add R] [Mul R] (sqrt : R → R) (a : Vector3d R) : R :=
  sqrt (a.dot a)

/-- The member `IonicLiquidTest::analyticEvaluate(eps, k, spNormal, sp, ppNormal, pp)`:
component `0` is the value of the Green's function, `1` the directional derivative
with respect to the probe point, `2` the one with respect to the source point, `3`
the Hessian. -/
def analyticEvaluate {R : Type} [Field R] (exp sqrt : R → R) (eps k : R)
    (spNormal sp ppNormal pp : Vector3d R) : Fin 4 → R :=
  let distance := (sp.sub pp).norm sqrt
  let distance_3 := distance ^ 3
  let distance_5 := distance ^ 5
  fun i =>
    match i with
    | 0 => exp (-k * distance) / (eps * distance)
    | 1 => (sp.sub pp).dot ppNormal * (1 + k * distance) * exp (-k * distance)
            / (eps * distance_3)
    | 2 => -(sp.sub pp).dot spNormal * (1 + k * distance) * exp (-k * distance)
            / (eps * distance_3)
    | 3 => spNormal.dot ppNormal * (1 + k * distance) * exp (-k * distance)
              / (eps * distance_3)
            - k ^ 2 * (sp.sub pp).dot spNormal * (sp.sub pp).dot ppNormal
              * exp (-k * distance) / (eps * distance_3)
            - 3 * (sp.sub pp).dot spNormal * (sp.sub pp).dot ppNormal
              * (1 + k * distance) * exp (-k * distance) / (eps * distance_5)

end IonicLiquidTest

namespace ForIdGreen

/-! ## Elementary facts about the metafunctions -/

theorem Run.enter_enterAll {τ γ σ : Type} (fr : Frame τ) (frs : List (Frame τ))
    (r : Run τ γ σ) : Run.enter fr (Run.enterAll frs r) = Run.enterAll (fr :: frs) r := rfl

theorem Run.enterAll_outcome {τ γ σ : Type} (frs : List (Frame τ)) (r : Run τ γ σ) :
    (Run.enterAll frs r).outcome = r.outcome := rfl

theorem Run.enterAll_functor {τ γ σ : Type} (frs : List (Frame τ)) (r : Run τ γ σ) :
    (Run.enterAll frs r).functor = r.functor := rfl

theorem Run.enterAll_frames {τ γ σ : Type} (frs : List (Frame τ)) (r : Run τ γ σ) :
    (Run.enterAll frs r).frames = frs ++ r.frames := rfl

theorem Run.enter_eq_enterAll {τ γ σ : Type} (fr : Frame τ) (r : Run τ γ σ) :
    Run.enter fr r = Run.enterAll [fr] r := rfl

theorem mpl_deref_lt {τ : Type} (S : List τ) (j : Nat) (h : j < S.length) :
    mpl_deref S ⟨j, Nat.lt_succ_of_lt h⟩ = some (S.get ⟨j, h⟩) := by
  simp [mpl_deref, List.getElem?_eq_getElem h]

theorem mpl_find_val {τ : Type} [DecidableEq τ] (S : List τ) (t : τ) :
    (mpl_find S (some t)).val = findIndex S t := by
  induction S with
  | nil => simp [mpl_find, findIndex, mpl_end]
  | cons x xs ih =>
    simp only [mpl_find, findIndex]
    split
    · simp [mpl_begin]
    · simp [ih]

theorem position_some {τ : Type} [DecidableEq τ] (S : List τ) (t : τ) :
    position S (some t) = (findIndex S t : Int) := by
  simp [position, mpl_distance, mpl_begin, mpl_find_val]

theorem findIndex_le {τ : Type} [DecidableEq τ] (S : List τ) (t : τ) :
    findIndex S t ≤ S.length := by
  induction S with
  | nil => simp [findIndex]
  | cons x xs ih =>
    simp only [findIndex, List.length_cons]
    split
    · omega
    · omega

theorem findIndex_lt_of_mem {τ : Type} [DecidableEq τ] (S : List τ) (t : τ) (h : t ∈ S) :
    findIndex S t < S.length := by
  induction S with
  | nil => simp at h
  | cons x xs ih =>
    simp only [findIndex, List.length_cons]
    by_cases hx : x = t
    · simp [hx]
    · simp only [hx, if_false]
      have : t ∈ xs := by
        rcases List.mem_cons.mp h with e | e
        · exact absurd e.symm hx
        · exact e
      have := ih this
      omega

theorem findIndex_get {τ : Type} [DecidableEq τ] (S : List τ) (t : τ)
    (h : findIndex S t < S.length) : S.get ⟨findIndex S t, h⟩ = t := by
  induction S with
  | nil => simp at h
  | cons x xs ih =>
    by_cases hx : x = t
    · simp [findIndex, hx]
    · simp only [findIndex, hx, if_false, List.length_cons] at h ⊢
      simpa using ih (by omega)

theorem findIndex_first {τ : Type} [DecidableEq τ] (S : List τ) (t : τ) (j : Nat)
    (hj : j < findIndex S t) (hl : j < S.length) : S.get ⟨j, hl⟩ ≠ t := by
  induction S generalizing j with
  | nil => simp at hl
  | cons x xs ih =>
    by_cases hx : x = t
    · simp [findIndex, hx] at hj
    · simp only [findIndex, hx, if_false] at hj
      cases j with
      | zero => simpa using hx
      | succ j =>
        simp only [List.length_cons] at hl
        simpa using ih j (by omega) (by omega)

theorem findIndex_get_of_nodup {τ : Type} [DecidableEq τ] (S : List τ) (hS : S.Nodup)
    (i : Nat) (hi : i < S.length) : findIndex S (S.get ⟨i, hi⟩) = i := by
  induction S generalizing i with
  | nil => simp at hi
  | cons x xs ih =>
    rw [List.nodup_cons] at hS
    cases i with
    | zero => simp [findIndex]
    | succ i =>
      simp only [List.length_cons] at hi
      have hi2 : i < xs.length := by omega
      have hne : x ≠ xs.get ⟨i, hi2⟩ := fun e => hS.1 (e ▸ List.get_mem xs i hi2)
      simp only [List.get_cons_succ, findIndex, hne, if_false]
      have := ih hS.2 i hi2
      simpa using this

/-! ## The three specializations of `for_id_impl` -/

theorem for_id_impl_terminating {τ δ γ σ : Type} [DecidableEq τ] (D : Dim) (S1 S2 : List τ)
    (T1 T2 : Option τ) (f : Functor τ δ γ σ) (data : δ) (id1 id2 : Int) (s : σ) :
    for_id_impl D S1 S2 (mpl_end S1) (mpl_end S2) T1 T2 f data id1 id2 s
      = ⟨.returned none, s, [.terminating]⟩ := by
  rw [for_id_impl]
  simp

theorem for_id_impl_first {τ δ γ σ : Type} [DecidableEq τ] (D : Dim) (S1 S2 : List τ)
    (j : Nat) (hj : j < S2.length)
    (T1 T2 : Option τ) (f : Functor τ δ γ σ) (data : δ) (id1 id2 : Int) (s : σ) :
    for_id_impl D S1 S2 (mpl_end S1) ⟨j, Nat.lt_succ_of_lt hj⟩ T1 T2 f data id1 id2 s
      = Run.enter (.first j)
          (if (findIndex S2 (S2.get ⟨j, hj⟩) : Int) = id2 then
            ApplyFunctor D T1 (some (S2.get ⟨j, hj⟩)) f data s
          else if j + 1 = S2.length then
            ⟨.thrown (invalid_id2 id2), s, []⟩
          else
            for_id_impl D S1 S2 (mpl_end S1) ⟨j + 1, by omega⟩ T1
              (mpl_deref S2 ⟨j + 1, by omega⟩) f data id1 id2 s) := by
  have hne : (⟨j, Nat.lt_succ_of_lt hj⟩ : v_iter S2) ≠ mpl_end S2 := by
    intro e
    have := congrArg Fin.val e
    simp [mpl_end] at this
    omega
  rw [for_id_impl]
  simp only [dif_pos, dif_neg hne, mpl_deref_lt S2 j hj, position_some]
  congr 1
  have hd : (1 = mpl_distance S2 ⟨j, Nat.lt_succ_of_lt hj⟩ (mpl_end S2)) ↔ (j + 1 = S2.length) := by
    simp only [mpl_distance, mpl_end]
    omega
  simp only [hd]
  rfl

theorem for_id_impl_primary {τ δ γ σ : Type} [DecidableEq τ] (D : Dim) (S1 S2 : List τ)
    (i : Nat) (hi : i < S1.length) (B2 : v_iter S2)
    (T1 T2 : Option τ) (f : Functor τ δ γ σ) (data : δ) (id1 id2 : Int) (s : σ) :
    for_id_impl D S1 S2 ⟨i, Nat.lt_succ_of_lt hi⟩ B2 T1 T2 f data id1 id2 s
      = Run.enter (.primary i B2.val)
          (if (findIndex S1 (S1.get ⟨i, hi⟩) : Int) = id1 then
            (if D = .one then
              ApplyFunctor D (some (S1.get ⟨i, hi⟩)) T2 f data s
            else
              for_id_impl D S1 S2 (mpl_end S1) B2 (some (S1.get ⟨i, hi⟩)) (mpl_deref S2 B2)
                f data id1 id2 s)
          else if i + 1 = S1.length then
            ⟨.thrown (invalid_id1 id1), s, []⟩
          else
            for_id_impl D S1 S2 ⟨i + 1, by omega⟩ B2 T1 (mpl_deref S2 B2) f data id1 0 s) := by
  have hne : (⟨i, Nat.lt_succ_of_lt hi⟩ : v_iter S1) ≠ mpl_end S1 := by
    intro e
    have := congrArg Fin.val e
    simp [mpl_end] at this
    omega
  rw [for_id_impl]
  simp only [dif_neg hne, mpl_deref_lt S1 i hi, position_some]
  congr 1
  have hd : (1 = mpl_distance S1 ⟨i, Nat.lt_succ_of_lt hi⟩ (mpl_end S1)) ↔ (i + 1 = S1.length) := by
    simp only [mpl_distance, mpl_end]
    omega
  have hD : (1 = D.value) ↔ (D = .one) := by
    cases D <;> simp [Dim.value]
  simp only [hd, hD]
  rfl

/-! ## The two scans -/

theorem ApplyFunctor_one {τ δ γ σ : Type} (T1 T2 T2' : Option τ)
    (f : Functor τ δ γ σ) (data : δ) (s : σ) :
    ApplyFunctor .one T1 T2 f data s = ApplyFunctor .one T1 T2' f data s := rfl

/-- The scan of `S2` by the first partial specialization, started at position `j`:
either it stops at the first position `k ≥ j` whose type has index `id2` and applies
the functor there, or there is no such position and it throws for `id2`. -/
theorem first_scan {τ δ γ σ : Type} [DecidableEq τ] (D : Dim) (S1 S2 : List τ)
    (T1 : Option τ) (f : Functor τ δ γ σ) (data : δ) (id1 id2 : Int) (s : σ) :
    ∀ (n j : Nat) (hj : j < S2.length) (T2 : Option τ), S2.length - j = n →
      (∃ (k : Nat) (hk : k < S2.length), j ≤ k ∧
          (findIndex S2 (S2.get ⟨k, hk⟩) : Int) = id2 ∧
          (∀ (i : Nat) (hi : i < S2.length), j ≤ i → i < k →
            (findIndex S2 (S2.get ⟨i, hi⟩) : Int) ≠ id2) ∧
          for_id_impl D S1 S2 (mpl_end S1) ⟨j, Nat.lt_succ_of_lt hj⟩ T1 T2 f data id1 id2 s
            = Run.enterAll ((List.range' j (k + 1 - j)).map Frame.first)
                (ApplyFunctor D T1 (some (S2.get ⟨k, hk⟩)) f data s))
      ∨ ((∀ (i : Nat) (hi : i < S2.length), j ≤ i →
            (findIndex S2 (S2.get ⟨i, hi⟩) : Int) ≠ id2) ∧
          for_id_impl D S1 S2 (mpl_end S1) ⟨j, Nat.lt_succ_of_lt hj⟩ T1 T2 f data id1 id2 s
            = ⟨.thrown (invalid_id2 id2), s,
                (List.range' j (S2.length - j)).map Frame.first⟩) := by
  intro n
  induction n with
  | zero => intro j hj T2 hn; omega
  | succ n ih =>
    intro j hj T2 hn
    rw [for_id_impl_first D S1 S2 j hj]
    by_cases hm : (findIndex S2 (S2.get ⟨j, hj⟩) : Int) = id2
    · left
      refine ⟨j, hj, le_refl j, hm, ?_, ?_⟩
      · intro i hi h1 h2; omega
      · simp only [if_pos hm]
        have : j + 1 - j = 1 := by omega
        rw [this]
        rfl
    · simp only [if_neg hm]
      by_cases hlast : j + 1 = S2.length
      · right
        refine ⟨?_, ?_⟩
        · intro i hi h1
          have : i = j := by omega
          subst this
          exact hm
        · simp only [if_pos hlast]
          have : S2.length - j = 1 := by omega
          rw [this]
          rfl
      · simp only [if_neg hlast]
        have hj1 : j + 1 < S2.length := by omega
        rcases ih (j + 1) hj1 (mpl_deref S2 ⟨j + 1, by omega⟩) (by omega) with
          ⟨k, hk, hjk, hkm, hkmin, hrun⟩ | ⟨hno, hrun⟩
        · left
          refine ⟨k, hk, by omega, hkm, ?_, ?_⟩
          · intro i hi h1 h2
            by_cases hij : i = j
            · subst hij; exact hm
            · exact hkmin i hi (by omega) h2
          · rw [hrun, Run.enter_enterAll]
            have : k + 1 - j = (k + 1 - (j + 1)) + 1 := by omega
            rw [this, List.range'_succ]
            rfl
        · right
          refine ⟨?_, ?_⟩
          · intro i hi h1
            by_cases hij : i = j
            · subst hij; exact hm
            · exact hno i hi (by omega)
          · rw [hrun]
            have : S2.length - j = (S2.length - (j + 1)) + 1 := by omega
            rw [this, List.range'_succ]
            rfl

/-- The scan of `S1` by the primary template, started at position `i`: either it
stops at the first position `k ≥ i` whose type has index `id1`, where it applies the
functor (`D = 1`) or hands over to the scan of `S2`, with the `id2` it was called
with when `k = i` and with `0` otherwise; or there is no such position and it throws
for `id1`. -/
theorem primary_scan {τ δ γ σ : Type} [DecidableEq τ] (D : Dim) (S1 S2 : List τ)
    (B2 : v_iter S2) (f : Functor τ δ γ σ) (data : δ) (id1 : Int) (s : σ) :
    ∀ (n i : Nat) (hi : i < S1.length) (T1 T2 : Option τ) (id2 : Int), S1.length - i = n →
      (∃ (k : Nat) (hk : k < S1.length), i ≤ k ∧
          (findIndex S1 (S1.get ⟨k, hk⟩) : Int) = id1 ∧
          (∀ (a : Nat) (ha : a < S1.length), i ≤ a → a < k →
            (findIndex S1 (S1.get ⟨a, ha⟩) : Int) ≠ id1) ∧
          for_id_impl D S1 S2 ⟨i, Nat.lt_succ_of_lt hi⟩ B2 T1 T2 f data id1 id2 s
            = Run.enterAll ((List.range' i (k + 1 - i)).map (fun a => Frame.primary a B2.val))
                (if D = .one then
                  ApplyFunctor D (some (S1.get ⟨k, hk⟩)) T2 f data s
                else
                  for_id_impl D S1 S2 (mpl_end S1) B2 (some (S1.get ⟨k, hk⟩))
                    (mpl_deref S2 B2) f data id1 (if k = i then id2 else 0) s))
      ∨ ((∀ (a : Nat) (ha : a < S1.length), i ≤ a →
            (findIndex S1 (S1.get ⟨a, ha⟩) : Int) ≠ id1) ∧
          for_id_impl D S1 S2 ⟨i, Nat.lt_succ_of_lt hi⟩ B2 T1 T2 f data id1 id2 s
            = ⟨.thrown (invalid_id1 id1), s,
                (List.range' i (S1.length - i)).map (fun a => Frame.primary a B2.val)⟩) := by
  intro n
  induction n with
  | zero => intro i hi T1 T2 id2 hn; omega
  | succ n ih =>
    intro i hi T1 T2 id2 hn
    rw [for_id_impl_primary D S1 S2 i hi]
    by_cases hm : (findIndex S1 (S1.get ⟨i, hi⟩) : Int) = id1
    · left
      refine ⟨i, hi, le_refl i, hm, ?_, ?_⟩
      · intro a ha h1 h2; omega
      · simp only [if_pos hm]
        have : i + 1 - i = 1 := by omega
        rw [this]
        simp only [if_true]
        rfl
    · simp only [if_neg hm]
      by_cases hlast : i + 1 = S1.length
      · right
        refine ⟨?_, ?_⟩
        · intro a ha h1
          have : a = i := by omega
          subst this
          exact hm
        · simp only [if_pos hlast]
          have : S1.length - i = 1 := by omega
          rw [this]
          rfl
      · simp only [if_neg hlast]
        have hi1 : i + 1 < S1.length := by omega
        rcases ih (i + 1) hi1 T1 (mpl_deref S2 B2) 0 (by omega) with
          ⟨k, hk, hik, hkm, hkmin, hrun⟩ | ⟨hno, hrun⟩
        · left
          refine ⟨k, hk, by omega, hkm, ?_, ?_⟩
          · intro a ha h1 h2
            by_cases hai : a = i
            · subst hai; exact hm
            · exact hkmin a ha (by omega) h2
          · rw [hrun, Run.enter_enterAll]
            have h3 : k + 1 - i = (k + 1 - (i + 1)) + 1 := by omega
            have h4 : k ≠ i := by omega
            rw [h3, List.range'_succ]
            cases D with
            | one => rfl
            | two => simp [h4]
        · right
          refine ⟨?_, ?_⟩
          · intro a ha h1
            by_cases hai : a = i
            · subst hai; exact hm
            · exact hno a ha (by omega)
          · rw [hrun]
            have : S1.length - i = (S1.length - (i + 1)) + 1 := by omega
            rw [this, List.range'_succ]
            rfl

/-! ## Shared consequences of the scans -/

theorem invalid_id1_ne_invalid_id2 (a b : Int) : invalid_id1 a ≠ invalid_id2 b := by
  intro h
  have h2 := congrArg (fun t => t.data.get? 27) h
  simp only [invalid_id1, invalid_id2, String.data_append, List.append_assoc] at h2
  revert h2
  generalize (lexical_cast a).data ++ ") in for_id metafunction.".data = X
  generalize (lexical_cast b).data ++ ") in for_id metafunction.".data = Y
  intro h2
  simp at h2

theorem findIndex_get_zero {τ : Type} [DecidableEq τ] (S : List τ) (h : 0 < S.length) :
    findIndex S (S.get ⟨0, h⟩) = 0 := by
  cases S with
  | nil => simp at h
  | cons x xs => simp [findIndex]

theorem findIndex_cast_ne_of_out_of_range {τ : Type} [DecidableEq τ] (S : List τ)
    (id : Int) (hid : id < 0 ∨ (S.length : Int) ≤ id) (a : Nat) (ha : a < S.length) :
    (findIndex S (S.get ⟨a, ha⟩) : Int) ≠ id := by
  have h1 := findIndex_lt_of_mem S (S.get ⟨a, ha⟩) (List.get_mem S a ha)
  omega

theorem for_id_2d_eq {τ δ γ σ : Type} [DecidableEq τ] (S1 S2 : List τ) (h : 0 < S1.length)
    (f : Functor τ δ γ σ) (data : δ) (id1 id2 : Int) (s : σ) :
    for_id_2d S1 S2 f data id1 id2 s
      = for_id_impl .two S1 S2 ⟨0, Nat.lt_succ_of_lt h⟩ (mpl_begin S2)
          (mpl_deref S1 (mpl_begin S1)) (mpl_deref S2 (mpl_begin S2)) f data id1 id2 s := rfl

theorem for_id_1d_eq {τ δ γ σ : Type} [DecidableEq τ] (S1 : List τ) (h : 0 < S1.length)
    (f : Functor τ δ γ σ) (data : δ) (id1 : Int) (s : σ) :
    for_id_1d S1 f data id1 s
      = for_id_impl .one S1 [] ⟨0, Nat.lt_succ_of_lt h⟩ (mpl_begin ([] : List τ))
          (mpl_deref S1 (mpl_begin S1)) (mpl_deref ([] : List τ) (mpl_begin ([] : List τ)))
          f data id1 0 s := rfl

/-- The one-dimensional selector on a non-empty sequence: the functor is applied to
the first element whose index is `id1`, or the call throws for `id1`. -/
theorem for_id_1d_cases {τ δ γ σ : Type} [DecidableEq τ] (S1 : List τ) (h : 0 < S1.length)
    (f : Functor τ δ γ σ) (data : δ) (id1 : Int) (s : σ) :
    (∃ (k : Nat) (hk : k < S1.length),
        (findIndex S1 (S1.get ⟨k, hk⟩) : Int) = id1 ∧
        for_id_1d S1 f data id1 s
          = ⟨.returned (f.call1 (some (S1.get ⟨k, hk⟩)) data s).1,
              (f.call1 (some (S1.get ⟨k, hk⟩)) data s).2,
              (List.range' 0 (k + 1)).map (fun a => Frame.primary a 0)
                ++ [.apply1 (some (S1.get ⟨k, hk⟩))]⟩)
    ∨ ((∀ (a : Nat) (ha : a < S1.length), (findIndex S1 (S1.get ⟨a, ha⟩) : Int) ≠ id1) ∧
        for_id_1d S1 f data id1 s
          = ⟨.thrown (invalid_id1 id1), s,
              (List.range' 0 S1.length).map (fun a => Frame.primary a 0)⟩) := by
  rw [for_id_1d_eq S1 h]
  rcases primary_scan .one S1 [] (mpl_begin ([] : List τ)) f data id1 s S1.length 0 h
      (mpl_deref S1 (mpl_begin S1)) (mpl_deref ([] : List τ) (mpl_begin ([] : List τ))) 0 rfl with
    ⟨k, hk, _, hkm, _, hrun⟩ | ⟨hno, hrun⟩
  · left
    refine ⟨k, hk, hkm, ?_⟩
    rw [hrun]
    rfl
  · right
    refine ⟨fun a ha => hno a ha (Nat.zero_le a), ?_⟩
    rw [hrun]
    rfl

/-- The hand-over of the primary template to the second sequence, started at the
beginning of `S2`: the terminating specialization when `S2` is empty, else the
functor applied to the first element of `S2` whose index is `id2`, or a throw
for `id2`. -/
theorem second_axis_cases {τ δ γ σ : Type} [DecidableEq τ] (S1 S2 : List τ)
    (T1 T2 : Option τ) (f : Functor τ δ γ σ) (data : δ) (id1 id2 : Int) (s : σ) :
    (S2 = [] ∧ for_id_impl .two S1 S2 (mpl_end S1) (mpl_begin S2) T1 T2 f data id1 id2 s
        = ⟨.returned none, s, [.terminating]⟩)
    ∨ (∃ (k : Nat) (hk : k < S2.length),
        (findIndex S2 (S2.get ⟨k, hk⟩) : Int) = id2 ∧
        for_id_impl .two S1 S2 (mpl_end S1) (mpl_begin S2) T1 T2 f data id1 id2 s
          = ⟨.returned (f.call2 T1 (some (S2.get ⟨k, hk⟩)) data s).1,
              (f.call2 T1 (some (S2.get ⟨k, hk⟩)) data s).2,
              (List.range' 0 (k + 1)).map Frame.first
                ++ [.apply2 T1 (some (S2.get ⟨k, hk⟩))]⟩)
    ∨ (0 < S2.length ∧
        (∀ (a : Nat) (ha : a < S2.length), (findIndex S2 (S2.get ⟨a, ha⟩) : Int) ≠ id2) ∧
        for_id_impl .two S1 S2 (mpl_end S1) (mpl_begin S2) T1 T2 f data id1 id2 s
          = ⟨.thrown (invalid_id2 id2), s, (List.range' 0 S2.length).map Frame.first⟩) := by
  cases S2 with
  | nil =>
    left
    exact ⟨rfl, for_id_impl_terminating .two S1 [] T1 T2 f data id1 id2 s⟩
  | cons x xs =>
    right
    have h : 0 < (x :: xs).length := by simp
    rcases first_scan .two S1 (x :: xs) T1 f data id1 id2 s (x :: xs).length 0 h T2 rfl with
      ⟨k, hk, _, hkm, _, hrun⟩ | ⟨hno, hrun⟩
    · left
      refine ⟨k, hk, hkm, ?_⟩
      have e : mpl_begin (x :: xs) = ⟨0, Nat.lt_succ_of_lt h⟩ := rfl
      rw [e, hrun]
      rfl
    · right
      refine ⟨h, fun a ha => hno a ha (Nat.zero_le a), ?_⟩
      have e : mpl_begin (x :: xs) = ⟨0, Nat.lt_succ_of_lt h⟩ := rfl
      rw [e, hrun]
      rfl

/-- The two-dimensional selector on a non-empty first sequence: either the scan of
`S1` stops at the first position `k` whose type has index `id1` and hands over to
the second sequence, with the caller's `id2` when `k = 0` and with `0` otherwise, or
the call throws for `id1`. -/
theorem for_id_2d_cases {τ δ γ σ : Type} [DecidableEq τ] (S1 S2 : List τ) (h : 0 < S1.length)
    (f : Functor τ δ γ σ) (data : δ) (id1 id2 : Int) (s : σ) :
    (∃ (k : Nat) (hk : k < S1.length),
        (findIndex S1 (S1.get ⟨k, hk⟩) : Int) = id1 ∧
        (∀ (a : Nat) (ha : a < S1.length), a < k →
            (findIndex S1 (S1.get ⟨a, ha⟩) : Int) ≠ id1) ∧
        for_id_2d S1 S2 f data id1 id2 s
          = Run.enterAll ((List.range' 0 (k + 1)).map (fun a => Frame.primary a 0))
              (for_id_impl .two S1 S2 (mpl_end S1) (mpl_begin S2) (some (S1.get ⟨k, hk⟩))
                (mpl_deref S2 (mpl_begin S2)) f data id1 (if k = 0 then id2 else 0) s))
    ∨ ((∀ (a : Nat) (ha : a < S1.length), (findIndex S1 (S1.get ⟨a, ha⟩) : Int) ≠ id1) ∧
        for_id_2d S1 S2 f data id1 id2 s
          = ⟨.thrown (invalid_id1 id1), s,
              (List.range' 0 S1.length).map (fun a => Frame.primary a 0)⟩) := by
  rw [for_id_2d_eq S1 S2 h]
  rcases primary_scan .two S1 S2 (mpl_begin S2) f data id1 s S1.length 0 h
      (mpl_deref S1 (mpl_begin S1)) (mpl_deref S2 (mpl_begin S2)) id2 rfl with
    ⟨k, hk, _, hkm, hkmin, hrun⟩ | ⟨hno, hrun⟩
  · left
    refine ⟨k, hk, hkm, fun a ha hak => hkmin a ha (Nat.zero_le a) hak, ?_⟩
    rw [hrun]
    rfl
  · right
    refine ⟨fun a ha => hno a ha (Nat.zero_le a), ?_⟩
    rw [hrun]
    rfl

theorem for_id_2d_nil {τ δ γ σ : Type} [DecidableEq τ] (S2 : List τ)
    (f : Functor τ δ γ σ) (data : δ) (id1 id2 : Int) (s : σ) :
    for_id_2d ([] : List τ) S2 f data id1 id2 s
      = for_id_impl .two [] S2 (mpl_end ([] : List τ)) (mpl_begin S2)
          (mpl_deref ([] : List τ) (mpl_begin ([] : List τ))) (mpl_deref S2 (mpl_begin S2))
          f data id1 id2 s := rfl

theorem findIndex_cast_eq_of_nodup {τ : Type} [DecidableEq τ] (S : List τ) (hS : S.Nodup)
    (k : Nat) (hk : k < S.length) (id : Int)
    (h : (findIndex S (S.get ⟨k, hk⟩) : Int) = id) : (k : Int) = id := by
  rw [findIndex_get_of_nodup S hS k hk] at h
  exact h

theorem findIndex_get_le {τ : Type} [DecidableEq τ] (S : List τ) (k : Nat)
    (hk : k < S.length) : findIndex S (S.get ⟨k, hk⟩) ≤ k := by
  by_contra hc
  exact findIndex_first S (S.get ⟨k, hk⟩) k (by omega) hk rfl

/-- An index `i` with no equal element before it is the position of its element. -/
theorem findIndex_get_of_first {τ : Type} [DecidableEq τ] (S : List τ) (i : Nat)
    (hi : i < S.length)
    (hfirst : ∀ (j : Nat) (hj : j < S.length), j < i → S.get ⟨j, hj⟩ ≠ S.get ⟨i, hi⟩) :
    findIndex S (S.get ⟨i, hi⟩) = i := by
  have hle := findIndex_get_le S i hi
  by_contra hne
  have hlt : findIndex S (S.get ⟨i, hi⟩) < i := by omega
  exact hfirst _ (by omega) hlt (findIndex_get S (S.get ⟨i, hi⟩) (by omega))

theorem filter_isApply_primary {τ : Type} (l : List Nat) (b : Nat) :
    (l.map (fun a => (Frame.primary a b : Frame τ))).filter Frame.isApply = [] := by
  induction l with
  | nil => rfl
  | cons x xs ih => simp [Frame.isApply]

theorem filter_isApply_first {τ : Type} (l : List Nat) :
    (l.map (Frame.first : Nat → Frame τ)).filter Frame.isApply = [] := by
  induction l with
  | nil => rfl
  | cons x xs ih => simp [Frame.isApply]

/-! ## The claims -/

/-- C1 (the code departs from the claim): with `S1 = [AD_directional, AD_gradient]`,
`S2 = [Uniform, Yukawa]`, `id1 = 1` and `id2 = 1`, the two-dimensional selector
returns the functor applied to `(AD_gradient, Uniform)`, that is `(S1[1], S2[0])`,
and not to `(AD_gradient, Yukawa)`, that is `(S1[id1], S2[id2])`. -/
theorem for_id_2d_second_id_dropped :
    (for_id_2d [SampleType.AD_directional, SampleType.AD_gradient]
        [SampleType.Uniform, SampleType.Yukawa] recorder () 1 1 0).outcome
      = .returned (recorder.call2 (some SampleType.AD_gradient) (some SampleType.Uniform) () 0).1
    ∧ (for_id_2d [SampleType.AD_directional, SampleType.AD_gradient]
        [SampleType.Uniform, SampleType.Yukawa] recorder () 1 1 0).outcome
      ≠ .returned (recorder.call2 (some SampleType.AD_gradient) (some SampleType.Yukawa) () 0).1 := by
  simp [for_id_2d, for_id_impl, mpl_begin, mpl_end, mpl_next, mpl_deref, mpl_distance,
    position, mpl_find, Run.enter, ApplyFunctor, recorder, Dim.value]

/-- C2: for a duplicate-free sequence `S1` and `i < |S1|`, the one-dimensional
selector called with `id1 = i` returns what the functor returns for the single type
`S1[i]`, leaves the functor as that one application leaves it, and enters only the
primary template at positions `0..i` and then `ApplyFunctor<1, ..>`. Whatever `id1`
is, the first partial specialization (the scan of a second sequence) is never
entered and no error for `id2` is thrown. -/
theorem for_id_1d_selects {τ δ γ σ : Type} [DecidableEq τ] (S1 : List τ) (hS : S1.Nodup)
    (f : Functor τ δ γ σ) (data : δ) (s : σ) (i : Nat) (hi : i < S1.length) :
    for_id_1d S1 f data (i : Int) s
      = ⟨.returned (f.call1 (some (S1.get ⟨i, hi⟩)) data s).1,
          (f.call1 (some (S1.get ⟨i, hi⟩)) data s).2,
          (List.range' 0 (i + 1)).map (fun a => Frame.primary a 0)
            ++ [.apply1 (some (S1.get ⟨i, hi⟩))]⟩
    ∧ (∀ (id1 : Int) (s' : σ) (j : Nat), Frame.first j ∉ (for_id_1d S1 f data id1 s').frames)
    ∧ (∀ (id1 : Int) (s' : σ) (x : Int),
        (for_id_1d S1 f data id1 s').outcome ≠ .thrown (invalid_id2 x)) := by
  have h0 : 0 < S1.length := by omega
  refine ⟨?_, ?_, ?_⟩
  · rcases for_id_1d_cases S1 h0 f data (i : Int) s with ⟨k, hk, hkm, hrun⟩ | ⟨hno, _⟩
    · have hki : k = i := by
        have := findIndex_cast_eq_of_nodup S1 hS k hk _ hkm
        omega
      subst hki
      exact hrun
    · exact absurd (by rw [findIndex_get_of_nodup S1 hS i hi]) (hno i hi)
  · intro id1 s' j
    rcases for_id_1d_cases S1 h0 f data id1 s' with ⟨k, hk, _, hrun⟩ | ⟨_, hrun⟩
    · rw [hrun]; simp
    · rw [hrun]; simp
  · intro id1 s' x
    rcases for_id_1d_cases S1 h0 f data id1 s' with ⟨k, hk, _, hrun⟩ | ⟨_, hrun⟩
    · rw [hrun]; simp
    · rw [hrun]
      intro e
      exact invalid_id1_ne_invalid_id2 id1 x (Outcome.thrown.inj e)

/-- C2, at a concrete input: selecting index `1` of
`[AD_directional, AD_gradient, AD_hessian]`. -/
theorem for_id_1d_selects_witness :
    for_id_1d [SampleType.AD_directional, SampleType.AD_gradient, SampleType.AD_hessian]
        recorder () 1 0
      = ⟨.returned (some (some SampleType.AD_gradient, none)), 1,
          [.primary 0 0, .primary 1 0, .apply1 (some SampleType.AD_gradient)]⟩ :=
  (for_id_1d_selects [SampleType.AD_directional, SampleType.AD_gradient, SampleType.AD_hessian]
    (by decide) recorder () 0 1 (by decide)).1

/-- C3: for a non-empty duplicate-free `S1`, any `S2`, any `id2` and an `id1` that is
negative or at least `|S1|`, both selectors throw the error of the first axis with
the functor untouched, having entered the primary template only (no `ApplyFunctor`,
no returned pointer); and for `id1 = i < |S1|` neither selector throws an error of
the first axis. -/
theorem invalid_id1_rejected {τ δ γ σ : Type} [DecidableEq τ] (S1 S2 : List τ)
    (hne : S1 ≠ []) (hS : S1.Nodup) (f : Functor τ δ γ σ) (data : δ) (id1 id2 : Int) (s : σ)
    (hid : id1 < 0 ∨ (S1.length : Int) ≤ id1) :
    for_id_2d S1 S2 f data id1 id2 s
      = ⟨.thrown (invalid_id1 id1), s,
          (List.range' 0 S1.length).map (fun a => Frame.primary a 0)⟩
    ∧ for_id_1d S1 f data id1 s
      = ⟨.thrown (invalid_id1 id1), s,
          (List.range' 0 S1.length).map (fun a => Frame.primary a 0)⟩
    ∧ (∀ (i : Nat), i < S1.length → ∀ (x : Int),
        (for_id_2d S1 S2 f data (i : Int) id2 s).outcome ≠ .thrown (invalid_id1 x)
        ∧ (for_id_1d S1 f data (i : Int) s).outcome ≠ .thrown (invalid_id1 x)) := by
  have h0 : 0 < S1.length := List.length_pos.mpr hne
  refine ⟨?_, ?_, ?_⟩
  · rcases for_id_2d_cases S1 S2 h0 f data id1 id2 s with ⟨k, hk, hkm, _, _⟩ | ⟨_, hrun⟩
    · exact absurd hkm (findIndex_cast_ne_of_out_of_range S1 id1 hid k hk)
    · exact hrun
  · rcases for_id_1d_cases S1 h0 f data id1 s with ⟨k, hk, hkm, _⟩ | ⟨_, hrun⟩
    · exact absurd hkm (findIndex_cast_ne_of_out_of_range S1 id1 hid k hk)
    · exact hrun
  · intro i hi x
    constructor
    · rcases for_id_2d_cases S1 S2 h0 f data (i : Int) id2 s with
        ⟨k, hk, _, _, hrun⟩ | ⟨hno, _⟩
      · rw [hrun]
        rcases second_axis_cases S1 S2 (some (S1.get ⟨k, hk⟩)) (mpl_deref S2 (mpl_begin S2))
            f data (i : Int) (if k = 0 then id2 else 0) s with
          ⟨_, h2⟩ | ⟨k2, hk2, _, h2⟩ | ⟨_, _, h2⟩
        · rw [Run.enterAll_outcome, h2]; simp
        · rw [Run.enterAll_outcome, h2]; simp
        · rw [Run.enterAll_outcome, h2]
          intro e
          exact invalid_id1_ne_invalid_id2 x _ (Outcome.thrown.inj e).symm
      · exact absurd (by rw [findIndex_get_of_nodup S1 hS i hi]) (hno i hi)
    · rcases for_id_1d_cases S1 h0 f data (i : Int) s with ⟨k, hk, _, hrun⟩ | ⟨hno, _⟩
      · rw [hrun]; simp
      · exact absurd (by rw [findIndex_get_of_nodup S1 hS i hi]) (hno i hi)

/-- C3, at a concrete input: `id1 = 2 = |S1|`, one past the last valid index. -/
theorem invalid_id1_rejected_witness :
    for_id_2d [SampleType.AD_directional, SampleType.AD_gradient]
        [SampleType.Uniform, SampleType.Yukawa] recorder () 2 1 0
      = ⟨.thrown (invalid_id1 2), 0, [.primary 0 0, .primary 1 0]⟩ :=
  (invalid_id1_rejected [SampleType.AD_directional, SampleType.AD_gradient]
    [SampleType.Uniform, SampleType.Yukawa] (by decide) (by decide) recorder () 2 1 0
    (by decide)).1

/-- C4 (the code departs from the claim): with `S1 = [AD_directional, AD_gradient]`,
`S2 = [Uniform, Yukawa]`, the valid `id1 = 1` and the invalid `id2 = 2 = |S2|`, the
two-dimensional selector throws nothing: it applies the functor once and returns its
result for `(AD_gradient, Uniform)`. -/
theorem for_id_2d_invalid_id2_accepted :
    for_id_2d [SampleType.AD_directional, SampleType.AD_gradient]
        [SampleType.Uniform, SampleType.Yukawa] recorder () 1 2 0
      = ⟨.returned (some (some SampleType.AD_gradient, some SampleType.Uniform)), 1,
          [.primary 0 0, .primary 1 0, .first 0,
            .apply2 (some SampleType.AD_gradient) (some SampleType.Uniform)]⟩
    ∧ (for_id_2d [SampleType.AD_directional, SampleType.AD_gradient]
        [SampleType.Uniform, SampleType.Yukawa] recorder () 1 2 0).outcome
      ≠ .thrown (invalid_id2 2) := by
  simp [for_id_2d, for_id_impl, mpl_begin, mpl_end, mpl_next, mpl_deref, mpl_distance,
    position, mpl_find, Run.enter, ApplyFunctor, recorder, Dim.value]

/-- C5: whenever a selector throws, the message is
`"Invalid derivative type (id1 = <id1>) in for_id metafunction."` with the caller's
`id1`, and then no element of `S1` has index `id1`, or (two-dimensional selector
only) it is the same text with `id2 = <id2>` and the caller's `id2`, and then no
element of `S2` has index `id2`. A message for `id1` is never equal to a message for
`id2`, and the number is rendered in decimal with a leading `-` when negative. -/
theorem for_id_error_message {τ δ γ σ : Type} [DecidableEq τ] (S1 S2 : List τ)
    (f : Functor τ δ γ σ) (data : δ) (id1 id2 : Int) (s : σ) (msg : String) :
    ((for_id_2d S1 S2 f data id1 id2 s).outcome = .thrown msg →
        (msg = "Invalid derivative type (id1 = " ++ lexical_cast id1
                  ++ ") in for_id metafunction."
          ∧ ∀ (a : Nat) (ha : a < S1.length), position S1 (some (S1.get ⟨a, ha⟩)) ≠ id1)
        ∨ (msg = "Invalid derivative type (id2 = " ++ lexical_cast id2
                  ++ ") in for_id metafunction."
          ∧ ∀ (a : Nat) (ha : a < S2.length), position S2 (some (S2.get ⟨a, ha⟩)) ≠ id2))
    ∧ ((for_id_1d S1 f data id1 s).outcome = .thrown msg →
        msg = "Invalid derivative type (id1 = " ++ lexical_cast id1
                  ++ ") in for_id metafunction."
          ∧ ∀ (a : Nat) (ha : a < S1.length), position S1 (some (S1.get ⟨a, ha⟩)) ≠ id1)
    ∧ (∀ (a b : Int),
        "Invalid derivative type (id1 = " ++ lexical_cast a ++ ") in for_id metafunction."
          ≠ "Invalid derivative type (id2 = " ++ lexical_cast b ++ ") in for_id metafunction.")
    ∧ lexical_cast 12 = "12" ∧ lexical_cast (-3) = "-3" ∧ lexical_cast 0 = "0" := by
  refine ⟨?_, ?_, invalid_id1_ne_invalid_id2, by decide, by decide, by decide⟩
  · intro hthrow
    -- what the hand-over to the second sequence can throw
    have second : ∀ (T1 : Option τ) (j2 : Int),
        (for_id_impl .two S1 S2 (mpl_end S1) (mpl_begin S2) T1 (mpl_deref S2 (mpl_begin S2))
            f data id1 j2 s).outcome = .thrown msg →
        msg = invalid_id2 j2 ∧ 0 < S2.length ∧
          ∀ (a : Nat) (ha : a < S2.length), (findIndex S2 (S2.get ⟨a, ha⟩) : Int) ≠ j2 := by
      intro T1 j2 ht
      rcases second_axis_cases S1 S2 T1 (mpl_deref S2 (mpl_begin S2)) f data id1 j2 s with
        ⟨_, h2⟩ | ⟨k2, hk2, _, h2⟩ | ⟨hpos, hno, h2⟩
      · rw [h2] at ht; simp at ht
      · rw [h2] at ht; simp at ht
      · rw [h2] at ht
        exact ⟨(Outcome.thrown.inj ht).symm, hpos, hno⟩
    cases S1 with
    | nil =>
      right
      rw [for_id_2d_nil] at hthrow
      rcases second _ id2 hthrow with ⟨hm, _, hno⟩
      refine ⟨hm, ?_⟩
      intro a ha
      rw [position_some]
      exact hno a ha
    | cons x xs =>
      have h0 : 0 < (x :: xs).length := by simp
      rcases for_id_2d_cases (x :: xs) S2 h0 f data id1 id2 s with
        ⟨k, hk, _, _, hrun⟩ | ⟨hno, hrun⟩
      · right
        rw [hrun, Run.enterAll_outcome] at hthrow
        rcases second _ _ hthrow with ⟨hm, hpos, hno⟩
        by_cases hk0 : k = 0
        · simp only [hk0, if_true] at hm hno
          refine ⟨hm, ?_⟩
          intro a ha
          rw [position_some]
          exact hno a ha
        · simp only [hk0, if_false] at hno
          exact absurd (by rw [findIndex_get_zero S2 hpos]; rfl) (hno 0 hpos)
      · left
        rw [hrun] at hthrow
        refine ⟨(Outcome.thrown.inj hthrow).symm, ?_⟩
        intro a ha
        rw [position_some]
        exact hno a ha
  · intro hthrow
    cases S1 with
    | nil =>
      have e : for_id_1d ([] : List τ) f data id1 s = ⟨.returned none, s, [.terminating]⟩ :=
        for_id_impl_terminating .one [] [] _ _ f data id1 0 s
      rw [e] at hthrow
      simp at hthrow
    | cons x xs =>
      have h0 : 0 < (x :: xs).length := by simp
      rcases for_id_1d_cases (x :: xs) h0 f data id1 s with ⟨k, hk, _, hrun⟩ | ⟨hno, hrun⟩
      · rw [hrun] at hthrow; simp at hthrow
      · rw [hrun] at hthrow
        refine ⟨(Outcome.thrown.inj hthrow).symm, ?_⟩
        intro a ha
        rw [position_some]
        exact hno a ha

/-- C5, at concrete inputs: the message for `id1 = -1` and the message for
`id1 = 0, id2 = 7`. -/
theorem for_id_error_message_witness :
    (for_id_1d [SampleType.AD_directional] recorder () (-1) 0).outcome
      = .thrown "Invalid derivative type (id1 = -1) in for_id metafunction."
    ∧ (for_id_2d [SampleType.AD_directional] [SampleType.Uniform] recorder () 0 7 0).outcome
      = .thrown "Invalid derivative type (id2 = 7) in for_id metafunction."
    ∧ ("Invalid derivative type (id2 = 7) in for_id metafunction."
        = "Invalid derivative type (id1 = " ++ lexical_cast 0 ++ ") in for_id metafunction."
            ∧ (∀ (a : Nat) (ha : a < [SampleType.AD_directional].length),
                position [SampleType.AD_directional]
                  (some ([SampleType.AD_directional].get ⟨a, ha⟩)) ≠ 0)
      ∨ "Invalid derivative type (id2 = 7) in for_id metafunction."
        = "Invalid derivative type (id2 = " ++ lexical_cast 7 ++ ") in for_id metafunction."
            ∧ (∀ (a : Nat) (ha : a < [SampleType.Uniform].length),
                position [SampleType.Uniform] (some ([SampleType.Uniform].get ⟨a, ha⟩)) ≠ 7)) := by
  have h1 : (for_id_1d [SampleType.AD_directional] recorder () (-1) 0).outcome
      = .thrown "Invalid derivative type (id1 = -1) in for_id metafunction." := by
    simp [for_id_1d, for_id_impl, mpl_begin, mpl_end, mpl_next, mpl_deref, mpl_distance,
      position, mpl_find, Run.enter, ApplyFunctor, recorder, Dim.value]
    decide
  have h2 : (for_id_2d [SampleType.AD_directional] [SampleType.Uniform] recorder () 0 7 0).outcome
      = .thrown "Invalid derivative type (id2 = 7) in for_id metafunction." := by
    simp [for_id_2d, for_id_impl, mpl_begin, mpl_end, mpl_next, mpl_deref, mpl_distance,
      position, mpl_find, Run.enter, ApplyFunctor, recorder, Dim.value]
    decide
  exact ⟨h1, h2,
    (for_id_error_message [SampleType.AD_directional] [SampleType.Uniform] recorder () 0 7 0
      "Invalid derivative type (id2 = 7) in for_id metafunction.").1 h2⟩

/-- C6: for a type `T` that occurs in `S`, `position<S, T>` is the index of the
first occurrence of `T`: it is a valid index, `S` has `T` there and at no smaller
index. Hence in a duplicate-free `S` the element at index `i` has position `i`, and
two elements of `S` with the same position are equal. -/
theorem position_first_occurrence {τ : Type} [DecidableEq τ] (S : List τ) (T : τ)
    (hT : T ∈ S) :
    (∃ (p : Nat) (hp : p < S.length), position S (some T) = (p : Int) ∧ S.get ⟨p, hp⟩ = T
        ∧ ∀ (j : Nat) (hj : j < S.length), j < p → S.get ⟨j, hj⟩ ≠ T)
    ∧ (S.Nodup → ∀ (i : Nat) (hi : i < S.length), position S (some (S.get ⟨i, hi⟩)) = (i : Int))
    ∧ (∀ (U : τ), U ∈ S → position S (some T) = position S (some U) → T = U) := by
  refine ⟨?_, ?_, ?_⟩
  · refine ⟨findIndex S T, findIndex_lt_of_mem S T hT, position_some S T,
      findIndex_get S T _, ?_⟩
    intro j hj hlt
    exact findIndex_first S T j hlt hj
  · intro hS i hi
    rw [position_some, findIndex_get_of_nodup S hS i hi]
  · intro U hU h
    rw [position_some, position_some] at h
    have h2 : findIndex S T = findIndex S U := by exact_mod_cast h
    have e1 := findIndex_get S T (findIndex_lt_of_mem S T hT)
    have e2 := findIndex_get S U (findIndex_lt_of_mem S U hU)
    rw [← e1, ← e2]
    congr 1
    exact Fin.ext h2

/-- C6, at a concrete input: the position of `AD_hessian` in
`[AD_directional, AD_gradient, AD_hessian, AD_gradient]` is `2`. -/
theorem position_first_occurrence_witness :
    SampleType.AD_hessian ∈ [SampleType.AD_directional, SampleType.AD_gradient,
        SampleType.AD_hessian, SampleType.AD_gradient]
    ∧ ∃ (p : Nat) (hp : p < [SampleType.AD_directional, SampleType.AD_gradient,
        SampleType.AD_hessian, SampleType.AD_gradient].length),
      position [SampleType.AD_directional, SampleType.AD_gradient,
        SampleType.AD_hessian, SampleType.AD_gradient] (some SampleType.AD_hessian) = (p : Int)
      ∧ [SampleType.AD_directional, SampleType.AD_gradient,
        SampleType.AD_hessian, SampleType.AD_gradient].get ⟨p, hp⟩ = SampleType.AD_hessian
      ∧ ∀ (j : Nat) (hj : j < [SampleType.AD_directional, SampleType.AD_gradient,
          SampleType.AD_hessian, SampleType.AD_gradient].length), j < p →
        [SampleType.AD_directional, SampleType.AD_gradient,
          SampleType.AD_hessian, SampleType.AD_gradient].get ⟨j, hj⟩ ≠ SampleType.AD_hessian :=
  ⟨by decide,
    (position_first_occurrence [SampleType.AD_directional, SampleType.AD_gradient,
      SampleType.AD_hessian, SampleType.AD_gradient] SampleType.AD_hessian (by decide)).1⟩

/-- C9: when `S1` is not empty, the one-dimensional selector never enters the
terminating specialization: it throws with the functor untouched, or it returns what
the functor returns for an element of `S1`. When moreover `S2` is not empty the same
holds for the two-dimensional selector, with an element of `S1` and one of `S2`. So
a returned `nullptr` is a `nullptr` returned by the functor. -/
theorem terminating_unreachable {τ δ γ σ : Type} [DecidableEq τ] (S1 S2 : List τ)
    (h1 : S1 ≠ []) (f : Functor τ δ γ σ) (data : δ) (id1 id2 : Int) (s : σ) :
    (Frame.terminating ∉ (for_id_1d S1 f data id1 s).frames
      ∧ ((∃ (msg : String), for_id_1d S1 f data id1 s
              = ⟨.thrown msg, s, (for_id_1d S1 f data id1 s).frames⟩)
          ∨ (∃ (t1 : τ), t1 ∈ S1
              ∧ (for_id_1d S1 f data id1 s).outcome = .returned (f.call1 (some t1) data s).1
              ∧ (for_id_1d S1 f data id1 s).functor = (f.call1 (some t1) data s).2))
      ∧ ((for_id_1d S1 f data id1 s).outcome = .returned none →
          ∃ (t1 : τ), t1 ∈ S1 ∧ (f.call1 (some t1) data s).1 = none))
    ∧ (S2 ≠ [] →
      Frame.terminating ∉ (for_id_2d S1 S2 f data id1 id2 s).frames
      ∧ ((∃ (msg : String), for_id_2d S1 S2 f data id1 id2 s
              = ⟨.thrown msg, s, (for_id_2d S1 S2 f data id1 id2 s).frames⟩)
          ∨ (∃ (t1 t2 : τ), t1 ∈ S1 ∧ t2 ∈ S2
              ∧ (for_id_2d S1 S2 f data id1 id2 s).outcome
                  = .returned (f.call2 (some t1) (some t2) data s).1
              ∧ (for_id_2d S1 S2 f data id1 id2 s).functor
                  = (f.call2 (some t1) (some t2) data s).2))
      ∧ ((for_id_2d S1 S2 f data id1 id2 s).outcome = .returned none →
          ∃ (t1 t2 : τ), t1 ∈ S1 ∧ t2 ∈ S2 ∧ (f.call2 (some t1) (some t2) data s).1 = none)) := by
  have h0 : 0 < S1.length := List.length_pos.mpr h1
  constructor
  · rcases for_id_1d_cases S1 h0 f data id1 s with ⟨k, hk, _, hrun⟩ | ⟨_, hrun⟩
    · rw [hrun]
      refine ⟨by simp, Or.inr ⟨S1.get ⟨k, hk⟩, List.get_mem S1 k hk, rfl, rfl⟩, ?_⟩
      intro hnull
      exact ⟨S1.get ⟨k, hk⟩, List.get_mem S1 k hk, Outcome.returned.inj hnull⟩
    · rw [hrun]
      refine ⟨by simp, Or.inl ⟨invalid_id1 id1, rfl⟩, ?_⟩
      intro hnull
      simp at hnull
  · intro h2
    rcases for_id_2d_cases S1 S2 h0 f data id1 id2 s with ⟨k, hk, _, _, hrun⟩ | ⟨_, hrun⟩
    · rcases second_axis_cases S1 S2 (some (S1.get ⟨k, hk⟩)) (mpl_deref S2 (mpl_begin S2))
          f data id1 (if k = 0 then id2 else 0) s with
        ⟨he, _⟩ | ⟨k2, hk2, _, hsec⟩ | ⟨_, _, hsec⟩
      · exact absurd he h2
      · rw [hrun, hsec]
        refine ⟨by simp [Run.enterAll],
          Or.inr ⟨S1.get ⟨k, hk⟩, S2.get ⟨k2, hk2⟩, List.get_mem S1 k hk,
            List.get_mem S2 k2 hk2, rfl, rfl⟩, ?_⟩
        intro hnull
        refine ⟨S1.get ⟨k, hk⟩, S2.get ⟨k2, hk2⟩, List.get_mem S1 k hk,
          List.get_mem S2 k2 hk2, ?_⟩
        exact Outcome.returned.inj hnull
      · rw [hrun, hsec]
        refine ⟨by simp [Run.enterAll], Or.inl ⟨invalid_id2 (if k = 0 then id2 else 0), rfl⟩, ?_⟩
        intro hnull
        simp [Run.enterAll] at hnull
    · rw [hrun]
      refine ⟨by simp, Or.inl ⟨invalid_id1 id1, rfl⟩, ?_⟩
      intro hnull
      simp at hnull

/-- C9, at a concrete input: a functor that returns `nullptr`, selected with valid
indices; the terminating specialization is not entered and the `nullptr` is the
functor's. -/
theorem terminating_unreachable_witness :
    Frame.terminating ∉ (for_id_2d [SampleType.AD_directional, SampleType.AD_gradient]
        [SampleType.Uniform, SampleType.Yukawa] nullFunctor () 0 1 0).frames
    ∧ (for_id_2d [SampleType.AD_directional, SampleType.AD_gradient]
        [SampleType.Uniform, SampleType.Yukawa] nullFunctor () 0 1 0)
      = ⟨.returned none, 1, [.primary 0 0, .first 0, .first 1,
          .apply2 (some SampleType.AD_directional) (some SampleType.Yukawa)]⟩ := by
  refine ⟨((terminating_unreachable [SampleType.AD_directional, SampleType.AD_gradient]
      [SampleType.Uniform, SampleType.Yukawa] (by decide) nullFunctor () 0 1 0).2
        (by decide)).1, ?_⟩
  simp [for_id_2d, for_id_impl, mpl_begin, mpl_end, mpl_next, mpl_deref, mpl_distance,
    position, mpl_find, Run.enter, ApplyFunctor, nullFunctor, Dim.value]

/-- C10: the one-dimensional selector on an empty `S1`, and the two-dimensional
selector on empty `S1` and `S2`, enter the terminating specialization at once: they
return `nullptr` for every `id1` and `id2`, throw nothing and leave the functor
untouched, no `ApplyFunctor` being entered. -/
theorem null_fallback_on_empty_lists {τ δ γ σ : Type} [DecidableEq τ]
    (f : Functor τ δ γ σ) (data : δ) (id1 id2 : Int) (s : σ) :
    for_id_1d ([] : List τ) f data id1 s = ⟨.returned none, s, [.terminating]⟩
    ∧ for_id_2d ([] : List τ) [] f data id1 id2 s = ⟨.returned none, s, [.terminating]⟩ :=
  ⟨for_id_impl_terminating .one [] [] _ _ f data id1 0 s,
    for_id_impl_terminating .two [] [] _ _ f data id1 id2 s⟩

/-- C11: for a non-empty `S1`, duplicates allowed, the one-dimensional selector
returns a pointer exactly when `id1` is an index `i` of `S1` with no equal element
before it; it then returns what the functor returns for `S1[i]`, and `ApplyFunctor`
is entered with `S1[i]`. When `S1[i]` is equal to an element at some `j < i`, the
call with `id1 = i` throws the error of the first axis, the functor untouched. -/
theorem first_match_wins {τ δ γ σ : Type} [DecidableEq τ] (S1 : List τ) (hne : S1 ≠ [])
    (f : Functor τ δ γ σ) (data : δ) (id1 : Int) (s : σ) :
    ((∃ (p : Option γ), (for_id_1d S1 f data id1 s).outcome = .returned p)
      ↔ ∃ (i : Nat) (hi : i < S1.length), (i : Int) = id1
          ∧ ∀ (j : Nat) (hj : j < S1.length), j < i → S1.get ⟨j, hj⟩ ≠ S1.get ⟨i, hi⟩)
    ∧ (∀ (i : Nat) (hi : i < S1.length), (i : Int) = id1 →
        (∀ (j : Nat) (hj : j < S1.length), j < i → S1.get ⟨j, hj⟩ ≠ S1.get ⟨i, hi⟩) →
        (for_id_1d S1 f data id1 s).outcome
            = .returned (f.call1 (some (S1.get ⟨i, hi⟩)) data s).1
          ∧ (for_id_1d S1 f data id1 s).functor = (f.call1 (some (S1.get ⟨i, hi⟩)) data s).2
          ∧ (for_id_1d S1 f data id1 s).frames.filter Frame.isApply
              = [.apply1 (some (S1.get ⟨i, hi⟩))])
    ∧ (∀ (i : Nat) (hi : i < S1.length), (i : Int) = id1 →
        (∃ (j : Nat) (hj : j < S1.length), j < i ∧ S1.get ⟨j, hj⟩ = S1.get ⟨i, hi⟩) →
        for_id_1d S1 f data id1 s
          = ⟨.thrown (invalid_id1 id1), s,
              (List.range' 0 S1.length).map (fun a => Frame.primary a 0)⟩) := by
  have h0 : 0 < S1.length := List.length_pos.mpr hne
  refine ⟨⟨?_, ?_⟩, ?_, ?_⟩
  · rintro ⟨p, hp⟩
    rcases for_id_1d_cases S1 h0 f data id1 s with ⟨k, hk, hkm, _⟩ | ⟨_, hrun⟩
    · have hlt : findIndex S1 (S1.get ⟨k, hk⟩) < S1.length :=
        findIndex_lt_of_mem S1 _ (List.get_mem S1 k hk)
      refine ⟨findIndex S1 (S1.get ⟨k, hk⟩), hlt, hkm, ?_⟩
      intro j hj hjlt
      rw [findIndex_get S1 (S1.get ⟨k, hk⟩) hlt]
      exact findIndex_first S1 (S1.get ⟨k, hk⟩) j hjlt hj
    · rw [hrun] at hp
      simp at hp
  · rintro ⟨i, hi, hid, hfirst⟩
    rcases for_id_1d_cases S1 h0 f data id1 s with ⟨k, hk, _, hrun⟩ | ⟨hno, _⟩
    · exact ⟨_, by rw [hrun]⟩
    · exact absurd (by rw [findIndex_get_of_first S1 i hi hfirst]; exact hid) (hno i hi)
  · intro i hi hid hfirst
    rcases for_id_1d_cases S1 h0 f data id1 s with ⟨k, hk, hkm, hrun⟩ | ⟨hno, _⟩
    · have hfi : findIndex S1 (S1.get ⟨k, hk⟩) = i := by omega
      have hlt : findIndex S1 (S1.get ⟨k, hk⟩) < S1.length :=
        findIndex_lt_of_mem S1 _ (List.get_mem S1 k hk)
      have hget : S1.get ⟨i, hi⟩ = S1.get ⟨k, hk⟩ := by
        have := findIndex_get S1 (S1.get ⟨k, hk⟩) hlt
        rw [← this]
        congr 1
        exact Fin.ext hfi.symm
      rw [hrun, hget]
      refine ⟨rfl, rfl, ?_⟩
      rw [List.filter_append, filter_isApply_primary]
      rfl
    · exact absurd (by rw [findIndex_get_of_first S1 i hi hfirst]; exact hid) (hno i hi)
  · rintro i hi hid ⟨j, hj, hjlt, hje⟩
    rcases for_id_1d_cases S1 h0 f data id1 s with ⟨k, hk, hkm, _⟩ | ⟨_, hrun⟩
    · exfalso
      have hfi : findIndex S1 (S1.get ⟨k, hk⟩) = i := by omega
      have hlt : findIndex S1 (S1.get ⟨k, hk⟩) < S1.length :=
        findIndex_lt_of_mem S1 _ (List.get_mem S1 k hk)
      have hget : S1.get ⟨i, hi⟩ = S1.get ⟨k, hk⟩ := by
        have := findIndex_get S1 (S1.get ⟨k, hk⟩) hlt
        rw [← this]
        congr 1
        exact Fin.ext hfi.symm
      have hjk : j < findIndex S1 (S1.get ⟨k, hk⟩) := by omega
      exact findIndex_first S1 (S1.get ⟨k, hk⟩) j hjk hj (hje.trans hget)
    · exact hrun

/-- C11, at a concrete input: in `[AD_directional, AD_gradient, AD_directional]` the
index `2` holds a type that already occurs at index `0`, and `id1 = 2` throws. -/
theorem first_match_wins_witness :
    [SampleType.AD_directional, SampleType.AD_gradient, SampleType.AD_directional] ≠ []
    ∧ for_id_1d [SampleType.AD_directional, SampleType.AD_gradient, SampleType.AD_directional]
        recorder () 2 0
      = ⟨.thrown (invalid_id1 2), 0, [.primary 0 0, .primary 1 0, .primary 2 0]⟩ :=
  ⟨by decide,
    (first_match_wins [SampleType.AD_directional, SampleType.AD_gradient,
      SampleType.AD_directional] (by decide) recorder () 2 0).2.2 2 (by decide) rfl
      ⟨0, by decide, by decide, rfl⟩⟩

/-- The two-dimensional selector on duplicate-free sequences, `S2` not empty, called
with `id1 = i` for `1 ≤ i < |S1|`: whatever `id2` is, the run is the primary template
at positions `0..i`, the first partial specialization at position `0` and the functor
applied to `(S1[i], S2[0])`. -/
theorem for_id_2d_after_first {τ δ γ σ : Type} [DecidableEq τ] (S1 S2 : List τ)
    (hS1 : S1.Nodup) (h2 : 0 < S2.length) (f : Functor τ δ γ σ) (data : δ) (s : σ)
    (i : Nat) (h1 : 1 ≤ i) (hi : i < S1.length) (id2 : Int) :
    for_id_2d S1 S2 f data (i : Int) id2 s
      = ⟨.returned (f.call2 (some (S1.get ⟨i, hi⟩)) (some (S2.get ⟨0, h2⟩)) data s).1,
          (f.call2 (some (S1.get ⟨i, hi⟩)) (some (S2.get ⟨0, h2⟩)) data s).2,
          (List.range' 0 (i + 1)).map (fun a => Frame.primary a 0)
            ++ [.first 0, .apply2 (some (S1.get ⟨i, hi⟩)) (some (S2.get ⟨0, h2⟩))]⟩ := by
  have h0 : 0 < S1.length := by omega
  rcases for_id_2d_cases S1 S2 h0 f data (i : Int) id2 s with
    ⟨k, hk, hkm, _, hrun⟩ | ⟨hno, _⟩
  · have hki : k = i := by
      have := findIndex_cast_eq_of_nodup S1 hS1 k hk _ hkm
      omega
    subst hki
    have hk0 : k ≠ 0 := by omega
    rw [hrun]
    simp only [hk0, if_false]
    rcases first_scan .two S1 S2 (some (S1.get ⟨k, hk⟩)) f data (k : Int) 0 s S2.length 0 h2
        (mpl_deref S2 (mpl_begin S2)) rfl with
      ⟨k2, hk2, _, _, hmin, hsec⟩ | ⟨hno2, _⟩
    · have hk20 : k2 = 0 := by
        by_contra hc
        exact hmin 0 h2 (le_refl 0) (by omega) (by rw [findIndex_get_zero S2 h2]; rfl)
      subst hk20
      have hsec2 : for_id_impl .two S1 S2 (mpl_end S1) (mpl_begin S2) (some (S1.get ⟨k, hk⟩))
          (mpl_deref S2 (mpl_begin S2)) f data (k : Int) 0 s
          = Run.enterAll ((List.range' 0 (0 + 1 - 0)).map Frame.first)
              (ApplyFunctor .two (some (S1.get ⟨k, hk⟩)) (some (S2.get ⟨0, h2⟩)) f data s) := hsec
      rw [hsec2]
      simp [Run.enterAll, ApplyFunctor]
    · exact absurd (by rw [findIndex_get_zero S2 h2]; rfl) (hno2 0 h2 (le_refl 0))
  · exact absurd (by rw [findIndex_get_of_nodup S1 hS1 i hi]) (hno i hi)

/-- The two-dimensional selector called with `id1 = 0` on a non-empty `S1`: the
primary template matches at once and hands the caller's `id2` to the scan of `S2`. -/
theorem for_id_2d_at_zero {τ δ γ σ : Type} [DecidableEq τ] (S1 S2 : List τ)
    (h0 : 0 < S1.length) (f : Functor τ δ γ σ) (data : δ) (id2 : Int) (s : σ) :
    for_id_2d S1 S2 f data 0 id2 s
      = Run.enterAll [Frame.primary 0 0]
          (for_id_impl .two S1 S2 (mpl_end S1) (mpl_begin S2) (some (S1.get ⟨0, h0⟩))
            (mpl_deref S2 (mpl_begin S2)) f data 0 id2 s) := by
  rcases for_id_2d_cases S1 S2 h0 f data 0 id2 s with ⟨k, hk, _, hmin, hrun⟩ | ⟨hno, _⟩
  · have hk0 : k = 0 := by
      by_contra hc
      exact hmin 0 h0 (by omega) (by rw [findIndex_get_zero S1 h0]; rfl)
    subst hk0
    rw [hrun]
    rfl
  · exact absurd (by rw [findIndex_get_zero S1 h0]; rfl) (hno 0 h0)

/-- C14: for duplicate-free non-empty `S1` and `S2` and `id1 = i` with
`1 ≤ i < |S1|`, the two-dimensional selector gives the same run for all `id2` and
`id2'`, valid or not: the functor applied once to `(S1[i], S2[0])`. For `id1 = 0` the
outcome does depend on `id2`: with `id2 = j < |S2|` it is what the functor returns for
`(S1[0], S2[j])`, and with an `id2` outside the range it is the error of the second
axis, so that `id2 = 0` and `id2 = -1` give different outcomes. For every `id1 ≠ 0`,
in the range or not, the run is the same for `id2` and `id2'`. -/
theorem id2_ignored_after_first_kernel {τ δ γ σ : Type} [DecidableEq τ] (S1 S2 : List τ)
    (hS1 : S1.Nodup) (hS2 : S2.Nodup) (h2 : 0 < S2.length)
    (f : Functor τ δ γ σ) (data : δ) (s : σ)
    (i : Nat) (h1 : 1 ≤ i) (hi : i < S1.length) (id2 id2' : Int) :
    for_id_2d S1 S2 f data (i : Int) id2 s = for_id_2d S1 S2 f data (i : Int) id2' s
    ∧ for_id_2d S1 S2 f data (i : Int) id2 s
      = ⟨.returned (f.call2 (some (S1.get ⟨i, hi⟩)) (some (S2.get ⟨0, h2⟩)) data s).1,
          (f.call2 (some (S1.get ⟨i, hi⟩)) (some (S2.get ⟨0, h2⟩)) data s).2,
          (List.range' 0 (i + 1)).map (fun a => Frame.primary a 0)
            ++ [.first 0, .apply2 (some (S1.get ⟨i, hi⟩)) (some (S2.get ⟨0, h2⟩))]⟩
    ∧ (∀ (j : Nat) (hj : j < S2.length),
        (for_id_2d S1 S2 f data 0 (j : Int) s).outcome
          = .returned (f.call2 (some (S1.get ⟨0, by omega⟩)) (some (S2.get ⟨j, hj⟩)) data s).1)
    ∧ (∀ (j2 : Int), j2 < 0 ∨ (S2.length : Int) ≤ j2 →
        (for_id_2d S1 S2 f data 0 j2 s).outcome = .thrown (invalid_id2 j2))
    ∧ (for_id_2d S1 S2 f data 0 0 s).outcome ≠ (for_id_2d S1 S2 f data 0 (-1) s).outcome
    ∧ (∀ (id1 : Int), id1 ≠ 0 →
        for_id_2d S1 S2 f data id1 id2 s = for_id_2d S1 S2 f data id1 id2' s) := by
  have h0 : 0 < S1.length := by omega
  have hvalid : ∀ (j : Nat) (hj : j < S2.length),
      (for_id_2d S1 S2 f data 0 (j : Int) s).outcome
        = .returned (f.call2 (some (S1.get ⟨0, h0⟩)) (some (S2.get ⟨j, hj⟩)) data s).1 := by
    intro j hj
    rw [for_id_2d_at_zero S1 S2 h0, Run.enterAll_outcome]
    rcases second_axis_cases S1 S2 (some (S1.get ⟨0, h0⟩)) (mpl_deref S2 (mpl_begin S2))
        f data 0 (j : Int) s with ⟨he, _⟩ | ⟨k2, hk2, hkm, hsec⟩ | ⟨_, hno, _⟩
    · subst he
      simp at h2
    · have hkj : k2 = j := by
        have := findIndex_cast_eq_of_nodup S2 hS2 k2 hk2 _ hkm
        omega
      subst hkj
      rw [hsec]
    · exact absurd (by rw [findIndex_get_of_nodup S2 hS2 j hj]) (hno j hj)
  have hinvalid : ∀ (j2 : Int), j2 < 0 ∨ (S2.length : Int) ≤ j2 →
      (for_id_2d S1 S2 f data 0 j2 s).outcome = .thrown (invalid_id2 j2) := by
    intro j2 hj2
    rw [for_id_2d_at_zero S1 S2 h0, Run.enterAll_outcome]
    rcases second_axis_cases S1 S2 (some (S1.get ⟨0, h0⟩)) (mpl_deref S2 (mpl_begin S2))
        f data 0 j2 s with ⟨he, _⟩ | ⟨k2, hk2, hkm, _⟩ | ⟨_, _, hsec⟩
    · subst he
      simp at h2
    · exact absurd hkm (findIndex_cast_ne_of_out_of_range S2 j2 hj2 k2 hk2)
    · rw [hsec]
  refine ⟨?_, for_id_2d_after_first S1 S2 hS1 h2 f data s i h1 hi id2, hvalid, hinvalid,
    ?_, ?_⟩
  · rw [for_id_2d_after_first S1 S2 hS1 h2 f data s i h1 hi id2,
      for_id_2d_after_first S1 S2 hS1 h2 f data s i h1 hi id2']
  · have e1 := hvalid 0 h2
    have e2 := hinvalid (-1) (Or.inl (by omega))
    simp only [Nat.cast_zero] at e1
    rw [e1, e2]
    exact fun h => Outcome.noConfusion h
  · intro id1 hid1
    by_cases hout : id1 < 0 ∨ (S1.length : Int) ≤ id1
    · have thrown : ∀ (j2 : Int), for_id_2d S1 S2 f data id1 j2 s
          = ⟨.thrown (invalid_id1 id1), s,
              (List.range' 0 S1.length).map (fun a => Frame.primary a 0)⟩ := by
        intro j2
        rcases for_id_2d_cases S1 S2 h0 f data id1 j2 s with ⟨k, hk, hkm, _, _⟩ | ⟨_, hrun⟩
        · exact absurd hkm (findIndex_cast_ne_of_out_of_range S1 id1 hout k hk)
        · exact hrun
      rw [thrown id2, thrown id2']
    · have hnn : 0 ≤ id1 := by omega
      obtain ⟨m, hm⟩ := Int.eq_ofNat_of_zero_le hnn
      subst hm
      have hm1 : 1 ≤ m := by omega
      have hmlt : m < S1.length := by omega
      rw [for_id_2d_after_first S1 S2 hS1 h2 f data s m hm1 hmlt id2,
        for_id_2d_after_first S1 S2 hS1 h2 f data s m hm1 hmlt id2']

/-- C14, at a concrete input: `id1 = 1` with `id2 = 1` and with the invalid
`id2 = 5` give the same run. -/
theorem id2_ignored_after_first_kernel_witness :
    for_id_2d [SampleType.AD_directional, SampleType.AD_gradient]
        [SampleType.Uniform, SampleType.Yukawa] recorder () 1 1 0
      = for_id_2d [SampleType.AD_directional, SampleType.AD_gradient]
        [SampleType.Uniform, SampleType.Yukawa] recorder () 1 5 0 :=
  (id2_ignored_after_first_kernel [SampleType.AD_directional, SampleType.AD_gradient]
    [SampleType.Uniform, SampleType.Yukawa] (by decide) (by decide) (by decide)
    recorder () 0 1 (by decide) (by decide) 1 5).1

theorem enterAll_primary_filter {τ γ σ : Type} (l : List Nat) (b : Nat) (r : Run τ γ σ) :
    (Run.enterAll (l.map (fun a => (Frame.primary a b : Frame τ))) r).frames.filter Frame.isApply
      = r.frames.filter Frame.isApply := by
  rw [Run.enterAll_frames, List.filter_append, filter_isApply_primary]
  rfl

/-- The three ways in which the hand-over to the second sequence can end. -/
theorem second_axis_applies_once {τ δ γ σ : Type} [DecidableEq τ] (S1 S2 : List τ)
    (T1 T2 : Option τ) (f : Functor τ δ γ σ) (data : δ) (id1 id2 : Int) (s : σ)
    (r : Run τ γ σ)
    (hr : r = for_id_impl .two S1 S2 (mpl_end S1) (mpl_begin S2) T1 T2 f data id1 id2 s) :
    (∃ (U : Option τ), r.outcome = .returned (f.call2 T1 U data s).1
        ∧ r.functor = (f.call2 T1 U data s).2
        ∧ r.frames.filter Frame.isApply = [.apply2 T1 U])
    ∨ ((∃ (msg : String), r.outcome = .thrown msg) ∧ r.functor = s
        ∧ r.frames.filter Frame.isApply = [])
    ∨ (r.outcome = .returned none ∧ r.functor = s
        ∧ r.frames.filter Frame.isApply = [] ∧ Frame.terminating ∈ r.frames) := by
  rcases second_axis_cases S1 S2 T1 T2 f data id1 id2 s with
    ⟨_, hsec⟩ | ⟨k2, hk2, _, hsec⟩ | ⟨_, _, hsec⟩
  · right; right
    rw [hr, hsec]
    exact ⟨rfl, rfl, rfl, List.mem_singleton.mpr rfl⟩
  · left
    rw [hr, hsec]
    refine ⟨some (S2.get ⟨k2, hk2⟩), rfl, rfl, ?_⟩
    rw [List.filter_append, filter_isApply_first]
    rfl
  · right; left
    rw [hr, hsec]
    exact ⟨⟨_, rfl⟩, rfl, filter_isApply_first _⟩

/-- C15: for all sequences and all `id1`, `id2`, a call of either selector ends in
one of three ways. It returns what one application of the functor returns, the
functor is as that one application leaves it and `ApplyFunctor` is entered exactly
once; or it throws, the functor is untouched and `ApplyFunctor` is not entered; or it
returns the `nullptr` of the terminating specialization, the functor is untouched and
`ApplyFunctor` is not entered. -/
theorem functor_applied_at_most_once {τ δ γ σ : Type} [DecidableEq τ] (S1 S2 : List τ)
    (f : Functor τ δ γ σ) (data : δ) (id1 id2 : Int) (s : σ) :
    ((∃ (T1 T2 : Option τ),
          (for_id_2d S1 S2 f data id1 id2 s).outcome = .returned (f.call2 T1 T2 data s).1
          ∧ (for_id_2d S1 S2 f data id1 id2 s).functor = (f.call2 T1 T2 data s).2
          ∧ (for_id_2d S1 S2 f data id1 id2 s).frames.filter Frame.isApply = [.apply2 T1 T2])
      ∨ ((∃ (msg : String), (for_id_2d S1 S2 f data id1 id2 s).outcome = .thrown msg)
          ∧ (for_id_2d S1 S2 f data id1 id2 s).functor = s
          ∧ (for_id_2d S1 S2 f data id1 id2 s).frames.filter Frame.isApply = [])
      ∨ ((for_id_2d S1 S2 f data id1 id2 s).outcome = .returned none
          ∧ (for_id_2d S1 S2 f data id1 id2 s).functor = s
          ∧ (for_id_2d S1 S2 f data id1 id2 s).frames.filter Frame.isApply = []
          ∧ Frame.terminating ∈ (for_id_2d S1 S2 f data id1 id2 s).frames))
    ∧ ((∃ (T1 : Option τ),
          (for_id_1d S1 f data id1 s).outcome = .returned (f.call1 T1 data s).1
          ∧ (for_id_1d S1 f data id1 s).functor = (f.call1 T1 data s).2
          ∧ (for_id_1d S1 f data id1 s).frames.filter Frame.isApply = [.apply1 T1])
      ∨ ((∃ (msg : String), (for_id_1d S1 f data id1 s).outcome = .thrown msg)
          ∧ (for_id_1d S1 f data id1 s).functor = s
          ∧ (for_id_1d S1 f data id1 s).frames.filter Frame.isApply = [])
      ∨ ((for_id_1d S1 f data id1 s).outcome = .returned none
          ∧ (for_id_1d S1 f data id1 s).functor = s
          ∧ (for_id_1d S1 f data id1 s).frames.filter Frame.isApply = []
          ∧ Frame.terminating ∈ (for_id_1d S1 f data id1 s).frames)) := by
  constructor
  · cases S1 with
    | nil =>
      rcases second_axis_applies_once [] S2 _ _ f data id1 id2 s _ (for_id_2d_nil S2 f data id1 id2 s)
        with ⟨U, h⟩ | h | h
      · exact Or.inl ⟨_, U, h⟩
      · exact Or.inr (Or.inl h)
      · exact Or.inr (Or.inr h)
    | cons x xs =>
      have h0 : 0 < (x :: xs).length := by simp
      rcases for_id_2d_cases (x :: xs) S2 h0 f data id1 id2 s with
        ⟨k, hk, _, _, hrun⟩ | ⟨_, hrun⟩
      · rw [hrun, enterAll_primary_filter, Run.enterAll_outcome, Run.enterAll_functor,
          Run.enterAll_frames]
        rcases second_axis_applies_once (x :: xs) S2 _ _ f data id1 _ s _ rfl with
          ⟨U, h⟩ | h | ⟨h1, h2, h3, h4⟩
        · exact Or.inl ⟨_, U, h⟩
        · exact Or.inr (Or.inl h)
        · exact Or.inr (Or.inr ⟨h1, h2, h3, List.mem_append_right _ h4⟩)
      · right; left
        rw [hrun]
        exact ⟨⟨_, rfl⟩, rfl, filter_isApply_primary _ _⟩
  · cases S1 with
    | nil =>
      right; right
      have e : for_id_1d ([] : List τ) f data id1 s = ⟨.returned none, s, [.terminating]⟩ :=
        for_id_impl_terminating .one [] [] _ _ f data id1 0 s
      rw [e]
      exact ⟨rfl, rfl, rfl, List.mem_singleton.mpr rfl⟩
    | cons x xs =>
      have h0 : 0 < (x :: xs).length := by simp
      rcases for_id_1d_cases (x :: xs) h0 f data id1 s with ⟨k, hk, _, hrun⟩ | ⟨_, hrun⟩
      · left
        rw [hrun]
        refine ⟨some ((x :: xs).get ⟨k, hk⟩), rfl, rfl, ?_⟩
        rw [List.filter_append, filter_isApply_primary]
        rfl
      · right; left
        rw [hrun]
        exact ⟨⟨_, rfl⟩, rfl, filter_isApply_primary _ _⟩

/-- C16: for a non-empty duplicate-free `S1` and the empty `S2`, the two-dimensional
selector called with `id1 = i < |S1|` and any `id2` enters the primary template at
positions `0..i` and then the terminating specialization: it returns `nullptr`,
throws nothing and leaves the functor untouched, `ApplyFunctor` not being entered.
With an `id1` that is negative or at least `|S1|` it throws the error of the first
axis. -/
theorem empty_strategy_list_gives_null {τ δ γ σ : Type} [DecidableEq τ] (S1 : List τ)
    (hne : S1 ≠ []) (hS : S1.Nodup) (f : Functor τ δ γ σ) (data : δ) (id2 : Int) (s : σ) :
    (∀ (i : Nat), i < S1.length →
        for_id_2d S1 ([] : List τ) f data (i : Int) id2 s
          = ⟨.returned none, s,
              (List.range' 0 (i + 1)).map (fun a => Frame.primary a 0) ++ [.terminating]⟩)
    ∧ (∀ (id1 : Int), id1 < 0 ∨ (S1.length : Int) ≤ id1 →
        for_id_2d S1 ([] : List τ) f data id1 id2 s
          = ⟨.thrown (invalid_id1 id1), s,
              (List.range' 0 S1.length).map (fun a => Frame.primary a 0)⟩) := by
  have h0 : 0 < S1.length := List.length_pos.mpr hne
  constructor
  · intro i hi
    rcases for_id_2d_cases S1 [] h0 f data (i : Int) id2 s with
      ⟨k, hk, hkm, _, hrun⟩ | ⟨hno, _⟩
    · have hki : k = i := by
        have := findIndex_cast_eq_of_nodup S1 hS k hk _ hkm
        omega
      subst hki
      have hterm : for_id_impl .two S1 ([] : List τ) (mpl_end S1) (mpl_begin ([] : List τ))
          (some (S1.get ⟨k, hk⟩)) (mpl_deref ([] : List τ) (mpl_begin ([] : List τ)))
          f data (k : Int) (if k = 0 then id2 else 0) s
          = ⟨.returned none, s, [.terminating]⟩ :=
        for_id_impl_terminating .two S1 [] _ _ f data _ _ s
      rw [hrun, hterm]
      rfl
    · exact absurd (by rw [findIndex_get_of_nodup S1 hS i hi]) (hno i hi)
  · intro id1 hid
    rcases for_id_2d_cases S1 [] h0 f data id1 id2 s with ⟨k, hk, hkm, _, _⟩ | ⟨_, hrun⟩
    · exact absurd hkm (findIndex_cast_ne_of_out_of_range S1 id1 hid k hk)
    · exact hrun

/-- C16, at a concrete input: `S1 = [AD_directional, AD_gradient]`, `S2` empty,
`id1 = 1`, `id2 = 3`. -/
theorem empty_strategy_list_gives_null_witness :
    [SampleType.AD_directional, SampleType.AD_gradient] ≠ []
    ∧ [SampleType.AD_directional, SampleType.AD_gradient].Nodup
    ∧ for_id_2d [SampleType.AD_directional, SampleType.AD_gradient] [] recorder () 1 3 0
      = ⟨.returned none, 0, [.primary 0 0, .primary 1 0, .terminating]⟩ :=
  ⟨by decide, by decide,
    (empty_strategy_list_gives_null [SampleType.AD_directional, SampleType.AD_gradient]
      (by decide) (by decide) recorder () 3 0).1 1 (by decide)⟩

end ForIdGreen

namespace IonicLiquidTest

/-! ## The analytic reference over the real numbers -/

theorem dot_sub_self_pos (s p : Vector3d ℝ) (h : s ≠ p) : 0 < (s.sub p).dot (s.sub p) := by
  have hne : s.x - p.x ≠ 0 ∨ s.y - p.y ≠ 0 ∨ s.z - p.z ≠ 0 := by
    by_contra hc
    push_neg at hc
    apply h
    cases s; cases p
    simp only [Vector3d.mk.injEq]
    simp only at hc
    exact ⟨by linarith [hc.1], by linarith [hc.2.1], by linarith [hc.2.2]⟩
  simp only [Vector3d.dot, Vector3d.sub]
  rcases hne with h1 | h1 | h1
  · have := mul_self_pos.mpr h1
    nlinarith [mul_self_nonneg (s.y - p.y), mul_self_nonneg (s.z - p.z)]
  · have := mul_self_pos.mpr h1
    nlinarith [mul_self_nonneg (s.x - p.x), mul_self_nonneg (s.z - p.z)]
  · have := mul_self_pos.mpr h1
    nlinarith [mul_self_nonneg (s.y - p.y), mul_self_nonneg (s.x - p.x)]

theorem hasDerivAt_probe_coord (a b n : ℝ) :
    HasDerivAt (fun t : ℝ => a - (b + t * n)) (-n) 0 := by
  have h := (((hasDerivAt_id (0 : ℝ)).mul_const n).const_add b).const_sub a
  simpa using h

/-- The value `exp(-k r) / (eps r)` along the line `t ↦ p + t n` of probe points has
at `t = 0` the derivative `(s - p).n (1 + k r) exp(-k r) / (eps r^3)`. -/
theorem hasDerivAt_value_probe (eps k : ℝ) (heps : eps ≠ 0) (s p n : Vector3d ℝ)
    (hsp : s ≠ p) :
    HasDerivAt
      (fun t : ℝ =>
        Real.exp (-k * Real.sqrt ((s.sub (p.add (Vector3d.smul t n))).dot
            (s.sub (p.add (Vector3d.smul t n)))))
          / (eps * Real.sqrt ((s.sub (p.add (Vector3d.smul t n))).dot
            (s.sub (p.add (Vector3d.smul t n))))))
      ((s.sub p).dot n * (1 + k * Real.sqrt ((s.sub p).dot (s.sub p)))
          * Real.exp (-k * Real.sqrt ((s.sub p).dot (s.sub p)))
        / (eps * Real.sqrt ((s.sub p).dot (s.sub p)) ^ 3)) 0 := by
  have hq0 := dot_sub_self_pos s p hsp
  have hr0 : 0 < Real.sqrt ((s.sub p).dot (s.sub p)) := Real.sqrt_pos.mpr hq0
  have hx := hasDerivAt_probe_coord s.x p.x n.x
  have hy := hasDerivAt_probe_coord s.y p.y n.y
  have hz := hasDerivAt_probe_coord s.z p.z n.z
  have hq := ((hx.mul hx).add (hy.mul hy)).add (hz.mul hz)
  have e0 : (s.sub (p.add (Vector3d.smul 0 n))).dot (s.sub (p.add (Vector3d.smul 0 n)))
      = (s.sub p).dot (s.sub p) := by
    simp [Vector3d.dot, Vector3d.sub, Vector3d.add, Vector3d.smul]
  have hq' : HasDerivAt (fun t : ℝ => (s.sub (p.add (Vector3d.smul t n))).dot
      (s.sub (p.add (Vector3d.smul t n))))
      (-n.x * (s.x - (p.x + 0 * n.x)) + (s.x - (p.x + 0 * n.x)) * -n.x
        + (-n.y * (s.y - (p.y + 0 * n.y)) + (s.y - (p.y + 0 * n.y)) * -n.y)
        + (-n.z * (s.z - (p.z + 0 * n.z)) + (s.z - (p.z + 0 * n.z)) * -n.z)) 0 := hq
  have hne : (s.sub (p.add (Vector3d.smul 0 n))).dot (s.sub (p.add (Vector3d.smul 0 n))) ≠ 0 := by
    rw [e0]; exact ne_of_gt hq0
  have hr := hq'.sqrt hne
  have he := (hr.const_mul (-k)).exp
  have hden := hr.const_mul eps
  have hden0 : eps * Real.sqrt ((s.sub (p.add (Vector3d.smul 0 n))).dot
      (s.sub (p.add (Vector3d.smul 0 n)))) ≠ 0 := by
    rw [e0]; exact mul_ne_zero heps (ne_of_gt hr0)
  have hdiv := he.div hden hden0
  convert hdiv using 1
  rw [e0]
  have hr0' := ne_of_gt hr0
  simp only [Vector3d.dot, Vector3d.sub] at hr0' ⊢
  field_simp
  ring

/-- C8: over the real numbers, for `eps ≠ 0` and `sp ≠ pp`, component `1` of
`analyticEvaluate` for the probe normal `ppNormal` is
`(sp - pp).ppNormal (1 + k r) exp(-k r) / (eps r^3)` with `r = |sp - pp|`, and it is
the derivative at `t = 0` of component `0` (which is `exp(-k r) / (eps r)`) taken at
the probe point `pp + t ppNormal`, whatever normals component `0` is given. -/
theorem derivativeProbe_is_directional_derivative (eps k : ℝ) (heps : eps ≠ 0)
    (spNormal sp ppNormal pp n1 n2 : Vector3d ℝ) (hsp : sp ≠ pp) :
    HasDerivAt
      (fun t : ℝ => analyticEvaluate Real.exp Real.sqrt eps k n1 sp n2
        (pp.add (Vector3d.smul t ppNormal)) 0)
      (analyticEvaluate Real.exp Real.sqrt eps k spNormal sp ppNormal pp 1) 0
    ∧ analyticEvaluate Real.exp Real.sqrt eps k spNormal sp ppNormal pp 1
      = (sp.sub pp).dot ppNormal * (1 + k * Real.sqrt ((sp.sub pp).dot (sp.sub pp)))
          * Real.exp (-k * Real.sqrt ((sp.sub pp).dot (sp.sub pp)))
        / (eps * Real.sqrt ((sp.sub pp).dot (sp.sub pp)) ^ 3)
    ∧ (∀ (q : Vector3d ℝ), analyticEvaluate Real.exp Real.sqrt eps k n1 sp n2 q 0
      = Real.exp (-k * Real.sqrt ((sp.sub q).dot (sp.sub q)))
        / (eps * Real.sqrt ((sp.sub q).dot (sp.sub q)))) :=
  ⟨hasDerivAt_value_probe eps k heps sp pp ppNormal hsp, rfl, fun _ => rfl⟩

/-- C8, at a concrete input: `eps = 60`, `k = 5`, source `(1, 0, 0)`, probe at the
origin, probe normal `(1, 0, 0)`. -/
theorem derivativeProbe_is_directional_derivative_witness :
    (60 : ℝ) ≠ 0
    ∧ (⟨1, 0, 0⟩ : Vector3d ℝ) ≠ ⟨0, 0, 0⟩
    ∧ HasDerivAt
      (fun t : ℝ => analyticEvaluate Real.exp Real.sqrt 60 5 ⟨0, 1, 0⟩ ⟨1, 0, 0⟩ ⟨1, 0, 0⟩
        ((⟨0, 0, 0⟩ : Vector3d ℝ).add (Vector3d.smul t ⟨1, 0, 0⟩)) 0)
      (analyticEvaluate Real.exp Real.sqrt 60 5 ⟨0, 1, 0⟩ ⟨1, 0, 0⟩ ⟨1, 0, 0⟩ ⟨0, 0, 0⟩ 1) 0 :=
  ⟨by norm_num, by simp,
    (derivativeProbe_is_directional_derivative 60 5 (by norm_num) ⟨0, 1, 0⟩ ⟨1, 0, 0⟩ ⟨1, 0, 0⟩
      ⟨0, 0, 0⟩ ⟨0, 1, 0⟩ ⟨1, 0, 0⟩ (by simp)).1⟩

theorem hasDerivAt_source_coord (a b n : ℝ) :
    HasDerivAt (fun t : ℝ => a + t * n - b) n 0 := by
  have h := (((hasDerivAt_id (0 : ℝ)).mul_const n).const_add a).sub_const b
  simpa using h

/-- Component `1` along the line `t ↦ s + t m` of source points has at `t = 0` the
derivative given by the Hessian formula. -/
theorem hasDerivAt_derivativeProbe_source (eps k : ℝ) (heps : eps ≠ 0)
    (s p m n : Vector3d ℝ) (hsp : s ≠ p) :
    HasDerivAt
      (fun t : ℝ =>
        ((s.add (Vector3d.smul t m)).sub p).dot n
          * (1 + k * Real.sqrt (((s.add (Vector3d.smul t m)).sub p).dot
              ((s.add (Vector3d.smul t m)).sub p)))
          * Real.exp (-k * Real.sqrt (((s.add (Vector3d.smul t m)).sub p).dot
              ((s.add (Vector3d.smul t m)).sub p)))
          / (eps * Real.sqrt (((s.add (Vector3d.smul t m)).sub p).dot
              ((s.add (Vector3d.smul t m)).sub p)) ^ 3))
      (m.dot n * (1 + k * Real.sqrt ((s.sub p).dot (s.sub p)))
            * Real.exp (-k * Real.sqrt ((s.sub p).dot (s.sub p)))
            / (eps * Real.sqrt ((s.sub p).dot (s.sub p)) ^ 3)
          - k ^ 2 * (s.sub p).dot m * (s.sub p).dot n
            * Real.exp (-k * Real.sqrt ((s.sub p).dot (s.sub p)))
            / (eps * Real.sqrt ((s.sub p).dot (s.sub p)) ^ 3)
          - 3 * (s.sub p).dot m * (s.sub p).dot n
            * (1 + k * Real.sqrt ((s.sub p).dot (s.sub p)))
            * Real.exp (-k * Real.sqrt ((s.sub p).dot (s.sub p)))
            / (eps * Real.sqrt ((s.sub p).dot (s.sub p)) ^ 5)) 0 := by
  have hq0 := dot_sub_self_pos s p hsp
  have hr0 : 0 < Real.sqrt ((s.sub p).dot (s.sub p)) := Real.sqrt_pos.mpr hq0
  have hx := hasDerivAt_source_coord s.x p.x m.x
  have hy := hasDerivAt_source_coord s.y p.y m.y
  have hz := hasDerivAt_source_coord s.z p.z m.z
  have e0 : ((s.add (Vector3d.smul 0 m)).sub p).dot ((s.add (Vector3d.smul 0 m)).sub p)
      = (s.sub p).dot (s.sub p) := by
    simp [Vector3d.dot, Vector3d.sub, Vector3d.add, Vector3d.smul]
  have e1 : ((s.add (Vector3d.smul 0 m)).sub p).dot n = (s.sub p).dot n := by
    simp [Vector3d.dot, Vector3d.sub, Vector3d.add, Vector3d.smul]
  have hA : HasDerivAt (fun t : ℝ => ((s.add (Vector3d.smul t m)).sub p).dot n)
      (m.x * n.x + m.y * n.y + m.z * n.z) 0 :=
    ((hx.mul_const n.x).add (hy.mul_const n.y)).add (hz.mul_const n.z)
  have hq : HasDerivAt (fun t : ℝ => ((s.add (Vector3d.smul t m)).sub p).dot
      ((s.add (Vector3d.smul t m)).sub p))
      (m.x * (s.x + 0 * m.x - p.x) + (s.x + 0 * m.x - p.x) * m.x
        + (m.y * (s.y + 0 * m.y - p.y) + (s.y + 0 * m.y - p.y) * m.y)
        + (m.z * (s.z + 0 * m.z - p.z) + (s.z + 0 * m.z - p.z) * m.z)) 0 :=
    ((hx.mul hx).add (hy.mul hy)).add (hz.mul hz)
  have hne : ((s.add (Vector3d.smul 0 m)).sub p).dot ((s.add (Vector3d.smul 0 m)).sub p) ≠ 0 := by
    rw [e0]; exact ne_of_gt hq0
  have hr := hq.sqrt hne
  have he := (hr.const_mul (-k)).exp
  have hlin := (hr.const_mul k).const_add 1
  have hnum := (hA.mul hlin).mul he
  have hden := (hr.pow 3).const_mul eps
  have hden0 : eps * Real.sqrt (((s.add (Vector3d.smul 0 m)).sub p).dot
      ((s.add (Vector3d.smul 0 m)).sub p)) ^ 3 ≠ 0 := by
    rw [e0]; exact mul_ne_zero heps (pow_ne_zero 3 (ne_of_gt hr0))
  have hdiv := hnum.div hden hden0
  convert hdiv using 1
  rw [e0, e1]
  have hr0' := ne_of_gt hr0
  simp only [Vector3d.dot, Vector3d.sub] at hr0' ⊢
  field_simp
  ring

/-- C13: over the real numbers, for `eps ≠ 0` and `sp ≠ pp`, component `3` of
`analyticEvaluate` is
`spNormal.ppNormal (1 + k r) e^(-k r) / (eps r^3) - k^2 (d.spNormal) (d.ppNormal) e^(-k r) / (eps r^3)
- 3 (d.spNormal) (d.ppNormal) (1 + k r) e^(-k r) / (eps r^5)` with `d = sp - pp` and
`r = |d|`, and it is the derivative at `t = 0` of component `1` (the probe derivative
along `ppNormal`) taken at the source point `sp + t spNormal`, whatever source normal
component `1` is given. -/
theorem hessian_is_mixed_second_derivative (eps k : ℝ) (heps : eps ≠ 0)
    (spNormal sp ppNormal pp n1 : Vector3d ℝ) (hsp : sp ≠ pp) :
    HasDerivAt
      (fun t : ℝ => analyticEvaluate Real.exp Real.sqrt eps k n1
        (sp.add (Vector3d.smul t spNormal)) ppNormal pp 1)
      (analyticEvaluate Real.exp Real.sqrt eps k spNormal sp ppNormal pp 3) 0
    ∧ analyticEvaluate Real.exp Real.sqrt eps k spNormal sp ppNormal pp 3
      = spNormal.dot ppNormal * (1 + k * Real.sqrt ((sp.sub pp).dot (sp.sub pp)))
            * Real.exp (-k * Real.sqrt ((sp.sub pp).dot (sp.sub pp)))
            / (eps * Real.sqrt ((sp.sub pp).dot (sp.sub pp)) ^ 3)
          - k ^ 2 * (sp.sub pp).dot spNormal * (sp.sub pp).dot ppNormal
            * Real.exp (-k * Real.sqrt ((sp.sub pp).dot (sp.sub pp)))
            / (eps * Real.sqrt ((sp.sub pp).dot (sp.sub pp)) ^ 3)
          - 3 * (sp.sub pp).dot spNormal * (sp.sub pp).dot ppNormal
            * (1 + k * Real.sqrt ((sp.sub pp).dot (sp.sub pp)))
            * Real.exp (-k * Real.sqrt ((sp.sub pp).dot (sp.sub pp)))
            / (eps * Real.sqrt ((sp.sub pp).dot (sp.sub pp)) ^ 5)
    ∧ (∀ (q : Vector3d ℝ), analyticEvaluate Real.exp Real.sqrt eps k n1 q ppNormal pp 1
      = (q.sub pp).dot ppNormal * (1 + k * Real.sqrt ((q.sub pp).dot (q.sub pp)))
          * Real.exp (-k * Real.sqrt ((q.sub pp).dot (q.sub pp)))
        / (eps * Real.sqrt ((q.sub pp).dot (q.sub pp)) ^ 3)) :=
  ⟨hasDerivAt_derivativeProbe_source eps k heps sp pp spNormal ppNormal hsp, rfl, fun _ => rfl⟩

/-- C13, at a concrete input: `eps = 60`, `k = 5`, source `(1, 0, 0)` with normal
`(0, 1, 0)`, probe at the origin with normal `(1, 0, 0)`. -/
theorem hessian_is_mixed_second_derivative_witness :
    (60 : ℝ) ≠ 0
    ∧ (⟨1, 0, 0⟩ : Vector3d ℝ) ≠ ⟨0, 0, 0⟩
    ∧ HasDerivAt
      (fun t : ℝ => analyticEvaluate Real.exp Real.sqrt 60 5 ⟨0, 1, 0⟩
        ((⟨1, 0, 0⟩ : Vector3d ℝ).add (Vector3d.smul t ⟨0, 1, 0⟩)) ⟨1, 0, 0⟩ ⟨0, 0, 0⟩ 1)
      (analyticEvaluate Real.exp Real.sqrt 60 5 ⟨0, 1, 0⟩ ⟨1, 0, 0⟩ ⟨1, 0, 0⟩ ⟨0, 0, 0⟩ 3) 0 :=
  ⟨by norm_num, by simp,
    (hessian_is_mixed_second_derivative 60 5 (by norm_num) ⟨0, 1, 0⟩ ⟨1, 0, 0⟩ ⟨1, 0, 0⟩
      ⟨0, 0, 0⟩ ⟨0, 1, 0⟩ (by simp)).1⟩

end IonicLiquidTest
